import Mathlib

/-!
Verification development for the sequential-thinking reasoning-session server
(TypeScript sources under src/).  The code is shallowly embedded: JavaScript
numbers are modelled as exact rationals (`ℚ`), IEEE floating point results that
feed weighted averages, square roots and logarithms are modelled over `ℝ`,
strings are Lean `String`s restricted to the ASCII fragment actually exercised
(`toLowerCase`, `\w`, `\s` and `[.!?]` behave identically there), and the
mutable `SequentialThinkingServer` object is explicit state passing over a
`ServerState` record.  JavaScript `Record`s are modelled as insertion-ordered
association lists, and `Set`s as first-occurrence deduplicated lists.
Console output, chalk colouring and the ASCII visualisation strings are
display-only side effects and are not modelled.
-/

namespace STS

/-! ## JavaScript string primitives -/

/-- Character class `\s` (the inputs exercised are ASCII, where JavaScript and
Lean agree on whitespace). -/
def wsChar (c : Char) : Bool := c.isWhitespace

/-- Character class `[.!?]`, the sentence-splitting delimiters used throughout
the analyzers. -/
def sentencePunc (c : Char) : Bool := c = '.' || c = '!' || c = '?'

/-- Character class `\w` = `[A-Za-z0-9_]`. -/
def wordChar (c : Char) : Bool := c.isAlphanum || c = '_'

/-- One step of run-splitting, processing characters right to left.  The state
is the groups to the right plus a flag telling whether the character
immediately to the right was a separator. -/
def splitRunsStep (p : Char → Bool) (c : Char) :
    List (List Char) × Bool → List (List Char) × Bool
  | (gs, rightSep) =>
    if p c then
      if rightSep then (gs, true) else ([] :: gs, true)
    else
      match gs with
      | [] => ([[c]], false)
      | g :: rest => ((c :: g) :: rest, false)

/-- JavaScript `s.split(/X+/)` for a character class `X`: pieces between
maximal separator runs, with a leading (resp. trailing) empty piece when the
string starts (resp. ends) with a separator, and `[""]` on the empty string. -/
def splitRuns (p : Char → Bool) (l : List Char) : List String :=
  (l.foldr (splitRunsStep p) ([[]], false)).1.map fun g => String.mk g

/-- JavaScript `s.split(/\s+/)`. -/
def jsSplitWs (s : String) : List String := splitRuns wsChar s.data

/-- JavaScript `s.split(sep)` for a one-character separator string: splits at
every single occurrence, keeping empty pieces. -/
def splitEveryAux (p : Char → Bool) : List Char → List Char → List String
  | [], acc => [String.mk acc.reverse]
  | c :: cs, acc =>
    if p c then String.mk acc.reverse :: splitEveryAux p cs []
    else splitEveryAux p cs (c :: acc)

/-- JavaScript `s.split(c)` for a single character separator. -/
def jsSplitEvery (p : Char → Bool) (s : String) : List String :=
  splitEveryAux p s.data []

/-- Prefix test on character lists. -/
def isPrefixChars : List Char → List Char → Bool
  | [], _ => true
  | _ :: _, [] => false
  | a :: as, b :: bs => a = b && isPrefixChars as bs

/-- Substring occurrence test on character lists. -/
def containsSubChars (sub : List Char) : List Char → Bool
  | [] => isPrefixChars sub []
  | c :: cs => isPrefixChars sub (c :: cs) || containsSubChars sub cs

/-- JavaScript `s.includes(sub)`. -/
def jsIncludes (s sub : String) : Bool := containsSubChars sub.data s.data

/-- First index at which `sub` occurs, JavaScript `s.indexOf(sub)` (with the
missing case as `none` instead of `-1`). -/
def indexOfSubAux (sub : List Char) : List Char → ℕ → Option ℕ
  | [], i => if isPrefixChars sub [] then some i else none
  | c :: cs, i =>
    if isPrefixChars sub (c :: cs) then some i else indexOfSubAux sub cs (i + 1)

/-- JavaScript `s.indexOf(sub)` as an optional index. -/
def jsIndexOfSub (s sub : String) : Option ℕ := indexOfSubAux sub.data s.data 0

/-- JavaScript `toLowerCase` on the ASCII fragment. -/
def jsLowerChar (c : Char) : Char :=
  if c.isUpper then Char.ofNat (c.toNat + 32) else c

/-- JavaScript `s.toLowerCase()` (ASCII fragment). -/
def jsToLower (s : String) : String := String.mk (s.data.map jsLowerChar)

/-- JavaScript `s.trim()`. -/
def jsTrim (s : String) : String :=
  String.mk (((s.data.dropWhile wsChar).reverse.dropWhile wsChar).reverse)

/-- JavaScript `s.startsWith(p)`. -/
def jsStartsWith (s p : String) : Bool := isPrefixChars p.data s.data

/-- Suffix test, JavaScript `s.endsWith(p)`. -/
def jsEndsWith (s p : String) : Bool :=
  isPrefixChars p.data.reverse s.data.reverse

/-- JavaScript `s.slice(n)` / `s.substring(n)`. -/
def jsDrop (s : String) (n : ℕ) : String := String.mk (s.data.drop n)

/-- JavaScript `s.substring(0, n)`. -/
def jsTake (s : String) (n : ℕ) : String := String.mk (s.data.take n)

/-- JavaScript `s.replace(/[^\w\s]/g, '')`: remove every character that is
neither a word character nor whitespace. -/
def jsStripNonWordKeepWs (s : String) : String :=
  String.mk (s.data.filter fun c => wordChar c || wsChar c)

/-- JavaScript `s.replace(/[^\w]/g, '')`: keep only word characters. -/
def jsStripNonWord (s : String) : String := String.mk (s.data.filter wordChar)

/-- Space-joining on character lists. -/
def joinSpaceChars : List (List Char) → List Char
  | [] => []
  | [x] => x
  | x :: y :: rest => x ++ ' ' :: joinSpaceChars (y :: rest)

/-- Concatenation with single-space separators, JavaScript `arr.flatten(' ')`. -/
def joinSpace (l : List String) : String :=
  String.mk (joinSpaceChars (l.map String.data))

/-- Concatenation with an arbitrary separator, JavaScript `arr.flatten(sep)`. -/
def joinSep (sep : String) (l : List String) : String :=
  String.mk (List.intercalate sep.data (l.map String.data))

/-! ## JavaScript collection primitives -/

/-- Deduplication keeping first occurrences, the observable content of
`[...new Set(l)]`. -/
def jsDedupAux {α : Type} [DecidableEq α] (seen : List α) : List α → List α
  | [] => []
  | x :: xs =>
    if x ∈ seen then jsDedupAux seen xs else x :: jsDedupAux (x :: seen) xs

/-- JavaScript `[...new Set(l)]`. -/
def jsDedup {α : Type} [DecidableEq α] (l : List α) : List α := jsDedupAux [] l

/-- Stable insertion for `stableSortBy`: `x` is placed before the first
element it strictly precedes, hence after every earlier element it ties
with. -/
def insertStable {α : Type} (bf : α → α → Prop) [DecidableRel bf] (x : α) :
    List α → List α
  | [] => [x]
  | y :: ys => if bf x y then x :: y :: ys else y :: insertStable bf x ys

/-- Stable sort placing `x` before `y` exactly when `bf x y`; for a strict
total preorder `bf` this is the unique stable sort, i.e. the observable
behaviour of JavaScript `Array.prototype.sort` with the corresponding
comparator (stable per the ECMAScript specification). -/
def stableSortBy {α : Type} (bf : α → α → Prop) [DecidableRel bf]
    (l : List α) : List α :=
  l.foldl (fun acc x => insertStable bf x acc) []

/-- Map lookup on an insertion-ordered association list, JavaScript
`record[key]` (with `undefined` as `none`). -/
def recordGet {α : Type} : List (String × α) → String → Option α
  | [], _ => none
  | (k', v') :: rest, k => if k' = k then some v' else recordGet rest k

/-- Map update on an insertion-ordered association list, JavaScript
`record[key] = value`: overwrites in place, or appends a fresh key. -/
def recordSet {α : Type} : List (String × α) → String → α → List (String × α)
  | [], k, v => [(k, v)]
  | (k', v') :: rest, k, v =>
    if k' = k then (k', v) :: rest else (k', v') :: recordSet rest k v

/-- JavaScript `Object.keys(record)` in insertion order. -/
def recordKeys {α : Type} (r : List (String × α)) : List String :=
  r.map Prod.fst

/-! ## JavaScript number primitives (doubles modelled as exact rationals) -/

/-- JavaScript `Math.round` (half-values round toward positive infinity). -/
def jsRound (q : ℚ) : ℚ := ((⌊q + 1 / 2⌋ : ℤ) : ℚ)

/-- JavaScript `Math.ceil`. -/
def jsCeil (q : ℚ) : ℚ := ((⌈q⌉ : ℤ) : ℚ)

/-- JavaScript `Math.min` on numbers. -/
def jsMin (a b : ℚ) : ℚ := if a ≤ b then a else b

/-- JavaScript `Math.max` on numbers. -/
def jsMax (a b : ℚ) : ℚ := if b ≤ a then a else b

/-- JavaScript `Math.min` applied to integer counts. -/
def jsMinN (a b : ℕ) : ℕ := if a ≤ b then a else b

/-- JavaScript `Math.max` applied to integer counts. -/
def jsMaxN (a b : ℕ) : ℕ := if b ≤ a then a else b

/-- JavaScript number-to-string coercion, needed only for the integers that
reach template literals in this code base. -/
def jsNumToString (q : ℚ) : String :=
  if q.den = 1 then toString q.num else toString q

/-! ## The ingress payload

`processThought` receives an untyped JSON object.  The four required fields
can be missing or of the wrong type, so they are modelled as optional tagged
values; truthiness follows JavaScript (`undefined`, `null`, `""`, `0`, and
`false` are falsy).  The optional fields are only ever read through the
unchecked casts of `validateThoughtData`, so they carry their cast types
directly. -/

inductive JSValue : Type
  | vNull : JSValue
  | vStr : String → JSValue
  | vNum : ℚ → JSValue
  | vBool : Bool → JSValue
deriving DecidableEq, Repr

/-- JavaScript truthiness of a possibly-missing primitive value. -/
def truthy : Option JSValue → Bool
  | none => false
  | some .vNull => false
  | some (.vStr s) => !s.isEmpty
  | some (.vNum q) => decide (q ≠ 0)
  | some (.vBool b) => b

/-- JavaScript `typeof v === 'string'`. -/
def isStringV : Option JSValue → Bool
  | some (.vStr _) => true
  | _ => false

/-- JavaScript `typeof v === 'number'`. -/
def isNumberV : Option JSValue → Bool
  | some (.vNum _) => true
  | _ => false

/-- JavaScript `typeof v === 'boolean'`. -/
def isBooleanV : Option JSValue → Bool
  | some (.vBool _) => true
  | _ => false

/-- Extraction helpers used after the validation guards have established the
shape of the value; the defaults are unreachable under those guards. -/
def asString : Option JSValue → String
  | some (.vStr s) => s
  | _ => ""

/-- Numeric extraction (see `asString`). -/
def asNumber : Option JSValue → ℚ
  | some (.vNum q) => q
  | _ => 0

/-- Boolean extraction (see `asString`). -/
def asBoolean : Option JSValue → Bool
  | some (.vBool b) => b
  | _ => false

/-! ## Enumerations of the thought data model -/

inductive Phase : Type
  | Planning | Analysis | Execution | Verification
deriving DecidableEq, Repr

/-- Rendering used by string interpolation and record keys. -/
def phaseToString : Phase → String
  | .Planning => "Planning"
  | .Analysis => "Analysis"
  | .Execution => "Execution"
  | .Verification => "Verification"

inductive Classification : Type
  | hypothesis | observation | conclusion | question | solution
deriving DecidableEq, Repr

/-- Rendering used by string interpolation and opposing-pair keys. -/
def classToString : Classification → String
  | .hypothesis => "hypothesis"
  | .observation => "observation"
  | .conclusion => "conclusion"
  | .question => "question"
  | .solution => "solution"

inductive Complexity : Type
  | simple | medium | complex
deriving DecidableEq, Repr

inductive Status : Type
  | complete | inProgress | needsRevision
deriving DecidableEq, Repr

inductive Priority : Type
  | low | medium | high
deriving DecidableEq, Repr

inductive TaskType : Type
  | creative | analytical | informational | technical | mixed
deriving DecidableEq, Repr

/-- Quality sub-record of a thought. -/
structure Quality : Type where
  coherence : ℚ
  depth : ℚ
  relevance : ℚ
  qualityScore : ℚ
  feedback : List String
deriving Repr

/-- One reported contradiction, `{thoughtNumber, explanation}`. -/
structure ContradictionDetail : Type where
  thoughtNumber : ℚ
  explanation : String
deriving Repr

/-! ## PromptAnalyzer data model (src/analytics/promptAnalyzer.ts) -/

structure PromptMetadata : Type where
  originalPrompt : String
  goals : List String
  constraints : List String
  domains : List String
  expectedOutputFormat : Option String
  priority : Priority
  complexity : Complexity
  keywords : List String
  entities : List String
  taskType : TaskType
deriving Repr

/-- Phase-distribution record of the complexity estimation. -/
structure PhaseDistribution : Type where
  Planning : ℚ
  Analysis : ℚ
  Execution : ℚ
  Verification : ℚ
deriving Repr

/-- Result of `IntelligenceMaximizationModule.estimateDetailedComplexity`. -/
structure ComplexityEstimation : Type where
  overallComplexity : Complexity
  conceptual : ℚ
  procedural : ℚ
  contextual : ℚ
  domain : ℚ
  recommendedThoughtCount : ℚ
  recommendedPhaseDistribution : PhaseDistribution
deriving Repr

/-- Modelled fragment of `IntelligenceMaximizationModule.generateRecommendations`.
Of the ten fields of the real bundle, only `complexityEstimation` feeds back
into the thought pipeline (the `totalThoughts` adjustment); the other nine
(strategies, reasoning types, tools, focus areas, pitfalls, biases,
metacognitive strategies, adaptive suggestions, insight prompts) are static
advisory string bundles that are merely echoed to the display and response and
are not modelled. -/
structure IntelligenceRecommendations : Type where
  complexityEstimation : ComplexityEstimation
deriving Repr

/-- Result of `PromptAnalyzer.analyzeThoughtAlignment`. -/
structure PromptAlignmentData : Type where
  promptAlignment : ℚ
  promptRelevance : List (String × ℚ)
  driftWarning : Option String
  suggestedCorrections : Option (List String)
deriving Repr

/-! ## ThoughtData (the validated and enriched thought record) -/

structure ThoughtData : Type where
  thought : String
  thoughtNumber : ℚ
  totalThoughts : ℚ
  nextThoughtNeeded : Bool
  isRevision : Option Bool := none
  revisesThought : Option ℚ := none
  branchFromThought : Option ℚ := none
  branchId : Option String := none
  needsMoreThoughts : Option Bool := none
  phase : Option Phase := none
  dependencies : Option (List ℚ) := none
  toolsUsed : Option (List String) := none
  complexity : Option Complexity := none
  status : Option Status := none
  quality : Option Quality := none
  keywords : Option (List String) := none
  insightValue : Option ℚ := none
  classification : Option Classification := none
  confidenceScore : Option ℚ := none
  evidenceStrength : Option ℚ := none
  assumptions : Option (List String) := none
  vector : Option (List ℝ) := none
  conceptsExtracted : Option (List String) := none
  contradictions : Option (List ContradictionDetail) := none
  reflectionPrompts : Option (List String) := none
  promptAlignment : Option ℚ := none
  promptRelevance : Option (List (String × ℚ)) := none
  driftWarning : Option String := none
  suggestedCorrections : Option (List String) := none
  intelligenceRecommendations : Option IntelligenceRecommendations := none

instance : Inhabited ThoughtData :=
  ⟨{ thought := "", thoughtNumber := 0, totalThoughts := 0,
     nextThoughtNeeded := false }⟩

/-- Truthiness of an optional boolean field (JavaScript `if (x)`). -/
def truthyB : Option Bool → Bool
  | some b => b
  | none => false

/-! ## PromptAnalyzer (src/analytics/promptAnalyzer.ts) -/

/-- Sentence splitting shared by the extractors:
`prompt.split(/[.!?]+/).map(s => s.trim()).filter(s => s.length > 0)`. -/
def sentencesOf (prompt : String) : List String :=
  (((splitRuns sentencePunc prompt.data).map jsTrim).filter
    fun s => s.data.length > 0)

def goalIndicators : List String :=
  ["goal is", "objective is", "aim is", "purpose is", "trying to",
   "want to", "need to", "would like to", "goal:", "objective:"]

/-- Goal extraction: sentences containing a goal indicator, else the first
sentence. -/
def extractGoals (prompt : String) : List String :=
  let sentences := sentencesOf prompt
  let goals := sentences.filter fun s =>
    goalIndicators.any fun ind => jsIncludes (jsToLower s) ind
  if goals.isEmpty then
    match sentences with
    | [] => []
    | s :: _ => [s]
  else goals

def constraintIndicators : List String :=
  ["must", "should", "need to", "have to", "required",
   "necessary", "important", "essential", "critical",
   "cannot", "can\x27t", "don\x27t", "shouldn\x27t", "mustn\x27t"]

/-- Constraint extraction: sentences containing a modal/necessity indicator. -/
def extractConstraints (prompt : String) : List String :=
  (sentencesOf prompt).filter fun s =>
    constraintIndicators.any fun ind => jsIncludes (jsToLower s) ind

/-- Domain keyword table (duplicated verbatim in semanticAnalyzer.ts as
`identifyAlternativeDomains`; both copies are modelled by this table). -/
def domainTable : List (String × List String) :=
  [("programming", ["code", "programming", "software", "development",
    "algorithm", "function"]),
   ("math", ["math", "calculation", "formula", "equation", "numerical"]),
   ("science", ["science", "scientific", "experiment", "hypothesis",
    "theory"]),
   ("business", ["business", "market", "strategy", "company", "product",
    "service"]),
   ("writing", ["write", "essay", "article", "blog", "content", "story"]),
   ("design", ["design", "layout", "visual", "UI", "UX", "interface"]),
   ("data", ["data", "analysis", "statistics", "dataset", "visualization"])]

/-- Domain extraction by keyword-table lookup (substring matching against the
lowercased prompt; the "UI"/"UX" entries are compared case-sensitively as in
the source). -/
def extractDomains (prompt : String) : List String :=
  let pl := jsToLower prompt
  (domainTable.filter fun e => e.2.any fun kw => jsIncludes pl kw).map Prod.fst

def formatIndicators : List String :=
  ["format:", "in the form of", "as a", "output as", "result as",
   "in markdown", "in json", "in html", "in csv", "in table"]

/-- Output-format extraction: the text after the first matching indicator, cut
at the first `[.!?]` character and trimmed.  The index is found on the
lowercased prompt but the substring is taken from the original prompt. -/
def extractOutputFormat (prompt : String) : Option String :=
  let pl := jsToLower prompt
  formatIndicators.findSome? fun ind =>
    match jsIndexOfSub pl ind with
    | none => none
    | some idx =>
      let afterIndicator := jsTrim (jsDrop prompt (idx + ind.data.length))
      some (jsTrim ((jsSplitEvery sentencePunc afterIndicator).headD ""))

def highPriorityIndicators : List String :=
  ["urgent", "immediately", "asap", "critical", "high priority",
   "as soon as possible", "emergency", "deadline"]

def mediumPriorityIndicators : List String :=
  ["important", "soon", "timely", "needed", "significant"]

/-- Priority: high indicators first, then medium, default low. -/
def determinePriority (prompt : String) : Priority :=
  let pl := jsToLower prompt
  if highPriorityIndicators.any (fun ind => jsIncludes pl ind) then .high
  else if mediumPriorityIndicators.any (fun ind => jsIncludes pl ind) then
    .medium
  else .low

def complexityIndicators : List String :=
  ["complex", "complicated", "difficult", "challenging", "advanced",
   "sophisticated", "intricate", "elaborate", "comprehensive"]

/-- Complexity: explicit complexity words override, else word-count
thresholds. -/
def estimatePromptComplexity (prompt : String) : Complexity :=
  let wordCount := (jsSplitWs prompt).length
  let pl := jsToLower prompt
  if complexityIndicators.any (fun ind => jsIncludes pl ind) then .complex
  else if wordCount > 100 then .complex
  else if wordCount > 30 then .medium
  else .simple

def paStopWords : List String :=
  ["a", "an", "the", "and", "or", "but", "in", "on", "at", "to", "for",
   "with", "by", "about", "as"]

/-- Keyword extraction of the prompt analyzer: lowercase, strip punctuation,
keep words longer than 3 that are not stop words, then the top 10 by frequency
(stable, first-occurrence insertion order on ties; the JavaScript
numeric-string key reordering of object literals is not exercised by any input
considered here). -/
def paExtractKeywords (prompt : String) : List String :=
  let words := ((jsSplitWs (jsStripNonWordKeepWs (jsToLower prompt))).filter
    fun w => w.data.length > 3).filter fun w => w ∉ paStopWords
  let counts := (jsDedup words).map fun w => (w, words.count w)
  ((stableSortBy (fun a b : String × ℕ => a.2 > b.2) counts).take 10).map
    Prod.fst

/-- Entity extraction: words (other than the first) whose first character is
an uppercase cased letter, after stripping non-word characters; ASCII cased
letters make the JavaScript test `c === c.toUpperCase() && c !== c.toLowerCase()`
coincide with `Char.isUpper`. -/
def extractEntities (prompt : String) : List String :=
  let words := jsSplitWs prompt
  jsDedup (words.enum.filterMap fun p =>
    let w := jsStripNonWord p.2
    match w.data with
    | [] => none
    | c :: _ => if c.isUpper ∧ p.1 > 0 then some w else none)

def creativeIndicators : List String :=
  ["create", "design", "generate", "write", "compose", "imagine", "story"]

def analyticalIndicators : List String :=
  ["analyze", "evaluate", "assess", "compare", "contrast", "examine"]

def informationalIndicators : List String :=
  ["explain", "describe", "what is", "how to", "information about",
   "tell me about"]

def technicalIndicators : List String :=
  ["code", "program", "implement", "function", "algorithm", "debug", "fix"]

/-- Number of indicators of a category occurring in the lowercased prompt. -/
def countIndicators (pl : String) (inds : List String) : ℕ :=
  (inds.filter fun ind => jsIncludes pl ind).length

/-- Task type: the four category counts are stably sorted descending; a strict
winner with a positive count wins, otherwise `mixed`. -/
def determineTaskType (prompt : String) : TaskType :=
  let pl := jsToLower prompt
  let counts : List (TaskType × ℕ) :=
    [(.creative, countIndicators pl creativeIndicators),
     (.analytical, countIndicators pl analyticalIndicators),
     (.informational, countIndicators pl informationalIndicators),
     (.technical, countIndicators pl technicalIndicators)]
  match stableSortBy (fun a b : TaskType × ℕ => a.2 > b.2) counts with
  | a :: b :: _ => if a.2 > 0 ∧ a.2 > b.2 then a.1 else .mixed
  | _ => .mixed

/-- The one-shot prompt profiling, `PromptAnalyzer.analyzePrompt`. -/
def analyzePrompt (prompt : String) : PromptMetadata :=
  { originalPrompt := prompt
    goals := extractGoals prompt
    constraints := extractConstraints prompt
    domains := extractDomains prompt
    expectedOutputFormat := extractOutputFormat prompt
    priority := determinePriority prompt
    complexity := estimatePromptComplexity prompt
    keywords := paExtractKeywords prompt
    entities := extractEntities prompt
    taskType := determineTaskType prompt }

/-- The goal keyword decomposition shared by the alignment scorer and the
drift checker: lowercase, strip punctuation, keep words longer than 3. -/
def goalKeywordsOf (goal : String) : List String :=
  (jsSplitWs (jsStripNonWordKeepWs (jsToLower goal))).filter
    fun w => w.data.length > 3

/-- Alignment score of a thought against the profile,
`PromptAnalyzer.calculateAlignmentScore`: neutral 5 averaged with a capped
keyword-overlap score, then averaged with the best goal keyword-coverage
score, rounded. -/
def calculateAlignmentScore (thought : String) (meta : PromptMetadata) : ℚ :=
  let score : ℚ := 5
  let tl := jsToLower thought
  let keywordMatches :=
    (meta.keywords.filter fun kw => jsIncludes tl kw).length
  let keywordScore : ℚ := jsMin 10 ((keywordMatches : ℚ) * 2)
  let score := (score + keywordScore) / 2
  let goalAlignmentScore := meta.goals.foldl (fun best goal =>
    let gks := goalKeywordsOf goal
    let m := (gks.filter fun kw => jsIncludes tl kw).length
    let pct : ℚ := if gks.length > 0 then (m : ℚ) / (gks.length : ℚ) else 0
    jsMax best (pct * 10)) 0
  let score := (score + goalAlignmentScore) / 2
  jsRound score

/-- Per-aspect relevance of the prompt analyzer (0-10 scale, neutral 5 when
there is nothing to check), `PromptAnalyzer.calculateAspectRelevance`; the
`thought` argument is already lowercased by the callers. -/
def paAspectRelevance (thought : String) (aspects : List String) : ℚ :=
  if aspects.length = 0 then 5
  else
    let total := (aspects.map fun aspect =>
      let aks := goalKeywordsOf aspect
      let m := (aks.filter fun kw => jsIncludes thought kw).length
      if aks.length > 0 then ((m : ℚ) / (aks.length : ℚ)) * 10
      else (5 : ℚ)).sum
    jsRound (total / (aspects.length : ℚ))

/-- Relevance record with the three fixed aspect keys,
`PromptAnalyzer.calculateRelevanceScores`. -/
def calculateRelevanceScores (thought : String) (meta : PromptMetadata) :
    List (String × ℚ) :=
  let tl := jsToLower thought
  [("goals", paAspectRelevance tl meta.goals),
   ("constraints", paAspectRelevance tl meta.constraints),
   ("domains", paAspectRelevance tl meta.domains)]

/-- Result of `PromptAnalyzer.checkForTopicDrift`. -/
structure DriftCheck : Type where
  hasDrift : Bool
  warning : Option String
  corrections : Option (List String)
deriving Repr

/-- Topic-drift check of the prompt analyzer: drift holds exactly when the
rounded alignment score is below 4; corrections list the goals whose keyword
coverage is below 30%. -/
def checkForTopicDrift (thought : String) (meta : PromptMetadata) :
    DriftCheck :=
  let alignmentScore := calculateAlignmentScore thought meta
  if alignmentScore < 4 then
    let corrections := meta.goals.filterMap fun goal =>
      let gks := goalKeywordsOf goal
      let m :=
        (gks.filter fun kw => jsIncludes (jsToLower thought) kw).length
      if (m : ℚ) < (gks.length : ℚ) * 0.3 then
        some ("Consider addressing the goal: \"" ++ goal ++ "\"")
      else none
    { hasDrift := true
      warning := some
        ("This thought appears to drift from the original prompt (alignment score: "
          ++ jsNumToString alignmentScore ++ "/10)")
      corrections := some (if corrections.isEmpty then
        ["Try to align more closely with the original prompt goals"]
        else corrections) }
  else { hasDrift := false, warning := none, corrections := none }

/-- Per-thought alignment bundle, `PromptAnalyzer.analyzeThoughtAlignment`:
the drift warning and corrections are attached exactly when
`checkForTopicDrift` reports drift. -/
def analyzeThoughtAlignment (thought : String) (meta : PromptMetadata) :
    PromptAlignmentData :=
  let pa := calculateAlignmentScore thought meta
  let pr := calculateRelevanceScores thought meta
  let dc := checkForTopicDrift thought meta
  if dc.hasDrift then
    { promptAlignment := pa, promptRelevance := pr,
      driftWarning := dc.warning, suggestedCorrections := dc.corrections }
  else
    { promptAlignment := pa, promptRelevance := pr,
      driftWarning := none, suggestedCorrections := none }

/-! ## IntelligenceMaximizationModule complexity estimation
(src/analytics/intelligenceMaximizationModule.ts) -/

/-- Conceptual complexity dimension (0-10). -/
def calculateConceptualComplexity (meta : PromptMetadata) : ℚ :=
  let c : ℚ := 5
  let c := c + jsMin ((meta.goals.length : ℚ) - 1) 3
  let c := c + jsMin ((meta.domains.length : ℚ) - 1) 2
  let c := c +
    (if meta.taskType = .analytical ∨ meta.taskType = .technical then 1 else 0)
  jsMax 0 (jsMin 10 c)

/-- Procedural complexity dimension (0-10). -/
def calculateProceduralComplexity (meta : PromptMetadata) : ℚ :=
  let c : ℚ := 5
  let c := c + jsMin (meta.constraints.length : ℚ) 3
  let c := c + (if meta.taskType = .technical then 2
    else if meta.taskType = .analytical then 1 else 0)
  let c := c + (if meta.priority = .high then 1 else 0)
  jsMax 0 (jsMin 10 c)

/-- Contextual complexity dimension (0-10). -/
def calculateContextualComplexity (meta : PromptMetadata) : ℚ :=
  let c : ℚ := 5
  let c := c + jsMin ((meta.entities.length : ℚ) / 2) 3
  let c := c + (if meta.taskType = .mixed then 2
    else if meta.taskType = .creative then 1 else 0)
  jsMax 0 (jsMin 10 c)

def complexDomainsList : List String :=
  ["quantum physics", "machine learning", "artificial intelligence",
   "cryptography", "medicine", "law", "finance", "mathematics"]

def mediumDomainsList : List String :=
  ["programming", "engineering", "biology", "chemistry", "psychology",
   "economics", "business", "education"]

/-- Domain complexity dimension (0-10): the first profile domain matching the
complex (resp. medium) table adds 2 (resp. 1) and stops the scan. -/
def calculateDomainComplexity (meta : PromptMetadata) : ℚ :=
  let bump : ℚ := (meta.domains.findSome? fun domain =>
    if complexDomainsList.any (fun d => jsIncludes (jsToLower domain) d) then
      some (2 : ℚ)
    else if mediumDomainsList.any (fun d => jsIncludes (jsToLower domain) d)
    then some 1
    else none).getD 0
  jsMax 0 (jsMin 10 (5 + bump))

/-- Phase distribution: a base table by overall complexity, incremented per
dimensional score above 7. -/
def calculatePhaseDistribution (oc : Complexity)
    (conceptual procedural contextual domain : ℚ) : PhaseDistribution :=
  let d : PhaseDistribution := match oc with
    | .simple => ⟨1, 1, 2, 1⟩
    | .medium => ⟨2, 2, 3, 1⟩
    | .complex => ⟨3, 3, 4, 2⟩
  let d := if conceptual > 7 then
    { d with Planning := d.Planning + 1, Analysis := d.Analysis + 1 } else d
  let d := if procedural > 7 then
    { d with Execution := d.Execution + 1 } else d
  let d := if contextual > 7 then
    { d with Analysis := d.Analysis + 1 } else d
  if domain > 7 then
    { d with Analysis := d.Analysis + 1, Verification := d.Verification + 1 }
  else d

/-- Detailed complexity estimation: the recommended thought count starts from
5/8/12 by overall complexity and is scaled by the average dimensional
deviation from 5, then rounded. -/
def estimateDetailedComplexity (meta : PromptMetadata) : ComplexityEstimation :=
  let oc := meta.complexity
  let conceptual := calculateConceptualComplexity meta
  let procedural := calculateProceduralComplexity meta
  let contextual := calculateContextualComplexity meta
  let domain := calculateDomainComplexity meta
  let base : ℚ := match oc with
    | .simple => 5
    | .medium => 8
    | .complex => 12
  let avgDimensional := (conceptual + procedural + contextual + domain) / 4
  let rtc := jsRound (base * (1 + (avgDimensional - 5) / 10))
  { overallComplexity := oc
    conceptual := conceptual
    procedural := procedural
    contextual := contextual
    domain := domain
    recommendedThoughtCount := rtc
    recommendedPhaseDistribution :=
      calculatePhaseDistribution oc conceptual procedural contextual domain }

/-- The recommendation bundle; see `IntelligenceRecommendations` for the
modelled fragment.  The thought-number, total and phase arguments drive only
the unmodelled advisory strings. -/
def generateRecommendations (meta : PromptMetadata) (_currentThoughtNumber
    _totalThoughts : ℚ) (_phase : Option Phase) : IntelligenceRecommendations :=
  { complexityEstimation := estimateDetailedComplexity meta }

/-! ## SemanticAnalyzer (src/analytics/semanticAnalyzer.ts) -/

/-- Stop-word list of the mocked `stopword` package. -/
def saStopwords : List String :=
  ["the", "and", "or", "but", "in", "on", "at", "to", "for", "with", "by",
   "is", "are", "was", "were", "this", "that", "these", "those"]

/-- Tokenization and normalization: lowercase, split on whitespace, remove
stop words (`SemanticAnalyzer.tokenizeAndNormalize`; the optional stemming
pass is commented out in the source). -/
def thoughtTokens (text : String) : List String :=
  (jsSplitWs (jsToLower text)).filter fun tok => jsToLower tok ∉ saStopwords

/-- The five hash seed primes of `getWordVector`. -/
def seedPrimes : List ℕ := [31, 101, 257, 401, 631]

/-- Bucket index of character position `i` and seed index `j`
(`(char * seedPrimes[j] + i + j) % 300`); character codes are UTF-16 units,
which agree with code points on the inputs exercised. -/
def bucketIdx (chars : List Char) (i j : ℕ) : ℕ :=
  ((chars.getD i ' ').toNat * seedPrimes.getD j 0 + i + j) % 300

/-- Raw (pre-normalization) hash word vector: the accumulation loop of
`getWordVector` rendered as a per-bucket sum with position-decayed weight
`1/(i+1)`. -/
def rawWordVec (w : String) (k : Fin 300) : ℚ :=
  ∑ i ∈ Finset.range w.data.length, ∑ j ∈ Finset.range 5,
    if bucketIdx w.data i j = (k : ℕ) then 1 / ((i : ℚ) + 1) else 0

/-- Magnitude of the raw hash word vector. -/
noncomputable def wordVecMag (w : String) : ℝ :=
  Real.sqrt (∑ k : Fin 300, ((rawWordVec w k : ℝ) * (rawWordVec w k : ℝ)))

open scoped Classical in
/-- Normalized hash word vector (`getWordVector`; the per-word cache is pure
memoization and has no observable effect). -/
noncomputable def wordVecFn (w : String) (k : Fin 300) : ℝ :=
  if wordVecMag w = 0 then 0 else (rawWordVec w k : ℝ) / wordVecMag w

/-- IDF weight of `buildThoughtVectors`; the source always returns 1. -/
def getIdfWeight (_w : String) : ℝ := 1.0

/-- Accumulated and averaged (but not yet normalized) thought vector.  Every
`getWordVector` result is a (truthy) array, so `wordCount` equals the token
count. -/
noncomputable def buildPre (text : String) (k : Fin 300) : ℝ :=
  let tokens := thoughtTokens text
  let summed := (tokens.map fun tok => wordVecFn tok k * getIdfWeight tok).sum
  if 0 < tokens.length then summed / (tokens.length : ℝ) else summed

/-- Magnitude of the averaged thought vector. -/
noncomputable def buildMag (text : String) : ℝ :=
  Real.sqrt (∑ k : Fin 300, buildPre text k * buildPre text k)

open scoped Classical in
/-- One entry of the final normalized thought vector. -/
noncomputable def buildThoughtVectorsFn (text : String) (k : Fin 300) : ℝ :=
  if buildMag text = 0 then 0 else buildPre text k / buildMag text

/-- The 300-dimensional semantic vector of a thought,
`SemanticAnalyzer.buildThoughtVectors`. -/
noncomputable def buildThoughtVectors (t : ThoughtData) : List ℝ :=
  List.ofFn fun k : Fin 300 => buildThoughtVectorsFn t.thought k

/-- Sum of squared entries, `v.reduce((sum, val) => sum + val * val, 0)`. -/
noncomputable def sumSq (v : List ℝ) : ℝ := (v.map fun x => x * x).sum

open scoped Classical in
/-- Cosine similarity on dense vectors, `SemanticAnalyzer.cosineSimilarity`:
0 on length mismatch or a zero magnitude. -/
noncomputable def cosineSimilarity (v1 v2 : List ℝ) : ℝ :=
  if v1.length ≠ v2.length then 0
  else
    let dotProduct := (List.zipWith (fun a b => a * b) v1 v2).sum
    let magnitude1 := Real.sqrt (sumSq v1)
    let magnitude2 := Real.sqrt (sumSq v2)
    if magnitude1 = 0 ∨ magnitude2 = 0 then 0
    else dotProduct / (magnitude1 * magnitude2)

/-- Jaccard similarity of keyword sets, `SemanticAnalyzer.jaccardSimilarity`:
0 when the union is empty. -/
def jaccardSimilarity (s1 s2 : Finset String) : ℚ :=
  if (s1 ∪ s2).card = 0 then 0
  else ((s1 ∩ s2).card : ℚ) / ((s1 ∪ s2).card : ℚ)

/-- Term frequency of the mocked `TfIdf.tfidf` implementation.  A division by
an empty document (JavaScript `NaN`) is never exercised: string documents
always split to a nonempty array and the only array document is guarded
nonempty. -/
def tfOf (doc : List String) (term : String) : ℚ :=
  (doc.count term : ℚ) / (doc.length : ℚ)

/-- Inverse document frequency with `1 + count` smoothing. -/
noncomputable def idfOf (docs : List (List String)) (term : String) : ℝ :=
  Real.log ((docs.length : ℝ) /
    (1 + ((docs.filter fun d => term ∈ d).length : ℝ)))

/-- TF-IDF score of a term in document `i` of the corpus `docs`; 0 when the
document index is out of range. -/
noncomputable def tfidfOf (docs : List (List String)) (term : String)
    (i : ℕ) : ℝ :=
  match docs.get? i with
  | none => 0
  | some doc => (tfOf doc term : ℝ) * idfOf docs term

open scoped Classical in
/-- Keyword extraction of the semantic analyzer
(`SemanticAnalyzer.extractKeywords`): top 10 distinct tokens by TF-IDF over
the single-document corpus of the text itself.  `listTerms` already sorts
descending and the subsequent stable resort with the same comparator is the
identity, so a single stable sort is modelled. -/
noncomputable def saExtractKeywords (text : String) : List String :=
  let tokens := thoughtTokens text
  if tokens.length = 0 then []
  else
    let scored := (jsDedup tokens).map fun term =>
      (term, tfidfOf [tokens] term 0)
    ((stableSortBy (fun a b : String × ℝ => a.2 > b.2) scored).take 10).map
      Prod.fst

open scoped Classical in
/-- Two-document TF-IDF cosine similarity,
`SemanticAnalyzer.calculateTfidfSimilarity` with `cosineSimilarityObjects`
inlined as sums over the (deduplicated) union of the two token multisets,
matching the order-independent value of the JavaScript key iteration.  The
documents are re-split from the joined token strings exactly as
`addDocument(tokens.flatten(' '))` does. -/
noncomputable def calculateTfidfSimilarity (text1 text2 : String) : ℝ :=
  let d1 := jsSplitWs (joinSpace (thoughtTokens text1))
  let d2 := jsSplitWs (joinSpace (thoughtTokens text2))
  let docs := [d1, d2]
  let terms := jsDedup (thoughtTokens text1 ++ thoughtTokens text2)
  let dotProduct := (terms.map fun t => tfidfOf docs t 0 * tfidfOf docs t 1).sum
  let magnitude1 := Real.sqrt ((terms.map fun t =>
    tfidfOf docs t 0 * tfidfOf docs t 0).sum)
  let magnitude2 := Real.sqrt ((terms.map fun t =>
    tfidfOf docs t 1 * tfidfOf docs t 1).sum)
  if magnitude1 = 0 ∨ magnitude2 = 0 then 0
  else dotProduct / (magnitude1 * magnitude2)

/-- Weighted pairwise thought similarity,
`SemanticAnalyzer.analyzeSemanticSimilarity`: cosine of the (stored or built)
vectors x0.5 + keyword Jaccard x0.2 + TF-IDF cosine x0.3.  A stored `vector`
array is always truthy in JavaScript, hence used whenever present. -/
noncomputable def analyzeSemanticSimilarity (t1 t2 : ThoughtData) : ℝ :=
  let v1 := t1.vector.getD (buildThoughtVectors t1)
  let v2 := t2.vector.getD (buildThoughtVectors t2)
  let cosineSim := cosineSimilarity v1 v2
  let jaccardSim := jaccardSimilarity (saExtractKeywords t1.thought).toFinset
    (saExtractKeywords t2.thought).toFinset
  let tfidfSim := calculateTfidfSimilarity t1.thought t2.thought
  cosineSim * 0.5 + (jaccardSim : ℝ) * 0.2 + tfidfSim * 0.3

/-- Levenshtein distance, the recurrence computed by the DP matrix of the
mocked `natural.LevenshteinDistance` (entry `[i][j]` is the minimum of
deletion, insertion and substitution-with-cost). -/
def jsLevenshteinAux : List Char → List Char → ℕ
  | [], t => t.length
  | s, [] => s.length
  | a :: s, b :: t =>
    jsMinN (jsLevenshteinAux s (b :: t) + 1)
      (jsMinN (jsLevenshteinAux (a :: s) t + 1)
        (jsLevenshteinAux s t + (if b = a then 0 else 1)))
termination_by s t => (s.length, t.length)

/-- Levenshtein distance with the early equality return of the source. -/
def jsLevenshtein (s1 s2 : String) : ℕ :=
  if s1 = s2 then 0 else jsLevenshteinAux s1.data s2.data

/-- Normalized edit-distance similarity,
`SemanticAnalyzer.calculateStringSimilarity`. -/
def calculateStringSimilarity (s1 s2 : String) : ℚ :=
  let distance := jsLevenshtein s1 s2
  let maxLength := jsMaxN s1.data.length s2.data.length
  if maxLength = 0 then 1.0
  else 1 - (distance : ℚ) / (maxLength : ℚ)

/-- Simplified Porter stemmer mock: strip a trailing `ing`, `ed` or `s`. -/
def stemOf (w : String) : String :=
  if jsEndsWith w "ing" then jsTake w (w.data.length - 3)
  else if jsEndsWith w "ed" then jsTake w (w.data.length - 2)
  else if jsEndsWith w "s" then jsTake w (w.data.length - 1)
  else w

/-- Phrase relevance, `SemanticAnalyzer.calculatePhraseRelevance`: word-overlap
Jaccard x0.4 + string similarity x0.3 + best stem-match similarity x0.3. -/
def calculatePhraseRelevance (phrase1 phrase2 : String) : ℚ :=
  let words1 := jsSplitEvery (fun c => c = ' ') phrase1
  let words2 := jsSplitEvery (fun c => c = ' ') phrase2
  let overlapSim := jaccardSimilarity words1.toFinset words2.toFinset
  let stringSim := calculateStringSimilarity phrase1 phrase2
  let semanticSim := ((words1.map fun w1 => words2.map fun w2 =>
    let stem1 := stemOf w1
    let stem2 := stemOf w2
    if stem1 = stem2 then (0.9 : ℚ)
    else calculateStringSimilarity stem1 stem2 * 0.7).flatten).foldl jsMax 0
  overlapSim * 0.4 + stringSim * 0.3 + semanticSim * 0.3

/-- Contextual aspect relevance,
`SemanticAnalyzer.calculateContextualAspectRelevance`: 1 when there is nothing
to check; per aspect, direct inclusion counts 1, otherwise token coverage x0.6
plus best sentence phrase-relevance x0.4; averaged and capped at 1. -/
def calculateContextualAspectRelevance (text : String)
    (aspects : List String) : ℚ :=
  if aspects.length = 0 then 1.0
  else
    let totalRelevance := (aspects.map fun aspect =>
      if jsIncludes (jsToLower text) (jsToLower aspect) then (1.0 : ℚ)
      else
        let aspectTokens := thoughtTokens aspect
        let textTokens := thoughtTokens text
        let tokenMatches :=
          (aspectTokens.filter fun tok => tok ∈ textTokens).length
        let tokenMatchFrac : ℚ :=
          if aspectTokens.length > 0 then
            (tokenMatches : ℚ) / (aspectTokens.length : ℚ)
          else 0
        let sentences := sentencesOf text
        let maxSentenceSimilarity :=
          (sentences.map fun s => calculatePhraseRelevance aspect s).foldl
            jsMax 0
        tokenMatchFrac * 0.6 + maxSentenceSimilarity * 0.4).sum
    jsMin 1.0 (totalRelevance / ((jsMaxN 1 aspects.length : ℕ) : ℚ))

/-- Alternative domains a drifting thought may be moving toward
(`SemanticAnalyzer.identifyAlternativeDomains`); the domain keyword table is a
verbatim copy of the prompt analyzer table. -/
def identifyAlternativeDomains (text : String) (meta : PromptMetadata) :
    List String :=
  let textLower := jsToLower text
  (domainTable.filter fun e =>
    !(meta.domains.contains e.1) &&
      e.2.any fun kw => jsIncludes textLower kw).map Prod.fst

/-- Result of `SemanticAnalyzer.detectTopicDrift`. -/
structure TopicDriftInfo : Type where
  hasDrift : Bool
  driftScore : ℚ
  driftReason : Option String
  driftDirection : Option String
deriving Repr

open scoped Classical in
/-- Topic-drift detection of the semantic analyzer,
`SemanticAnalyzer.detectTopicDrift`: `driftScore` is one minus the weighted
relevance blend and drift holds exactly above the 0.55 threshold.  The
JavaScript `overlapCount / Math.min(...)` division can produce `NaN` when a
thought has no keywords; the rational model yields 0 there, a corner no
theorem below depends on. -/
noncomputable def detectTopicDrift (t : ThoughtData) (meta : PromptMetadata) :
    TopicDriftInfo :=
  let thoughtText := t.thought
  let goalRelevance := calculateContextualAspectRelevance thoughtText
    meta.goals
  let keywordRelevance := calculateContextualAspectRelevance thoughtText
    meta.keywords
  let domainRelevance := calculateContextualAspectRelevance thoughtText
    meta.domains
  let thoughtKeywords := saExtractKeywords thoughtText
  let overlapCount :=
    (thoughtKeywords.filter fun kw => kw ∈ meta.keywords).length
  let keywordOverlapFrac : ℚ :=
    if meta.keywords.length > 0 then
      (overlapCount : ℚ) /
        ((jsMinN thoughtKeywords.length meta.keywords.length : ℕ) : ℚ)
    else 1.0
  let driftScore := 1 - (goalRelevance * 0.4 + keywordRelevance * 0.3 +
    domainRelevance * 0.1 + keywordOverlapFrac * 0.2)
  let driftDirection :=
    if driftScore > 0.4 then
      let alternativeDomains := identifyAlternativeDomains thoughtText meta
      if alternativeDomains.length > 0 then
        some ("Drifting toward: " ++ joinSep ", " alternativeDomains)
      else none
    else none
  let hasDrift := driftScore > 0.55
  let driftReason :=
    if hasDrift then
      some (if goalRelevance < 0.4 then
        "Thought has low relevance to the prompt\x27s main goals"
      else if keywordRelevance < 0.4 then
        "Thought uses terminology unrelated to the prompt\x27s key concepts"
      else if keywordOverlapFrac < 0.3 then
        "Few overlapping keywords with the prompt"
      else if domainRelevance < 0.3 then
        "Thought appears to address a different knowledge domain"
      else "Thought is diverging from the prompt\x27s intended direction")
    else none
  { hasDrift := hasDrift, driftScore := driftScore,
    driftReason := driftReason, driftDirection := driftDirection }

/-- Extended stop-word set of `isSignificantConcept`. -/
def conceptStopWords : List String :=
  ["the", "and", "or", "but", "in", "on", "at", "to", "for", "with", "by",
   "is", "are", "was", "were", "this", "that", "these", "those", "be",
   "been", "being", "have", "has", "had", "do", "does", "did", "can",
   "could", "will", "would", "should", "may", "might", "must", "shall"]

/-- Concept significance filter, `SemanticAnalyzer.isSignificantConcept`. -/
def isSignificantConcept (concept : String) : Bool :=
  let words := jsSplitEvery (fun c => c = ' ') concept
  if words.length > 1 then
    if words.all (fun w => w ∈ conceptStopWords) then false
    else if words.length ≥ 3 then true
    else words.any fun w => w ∉ conceptStopWords ∧ w.data.length > 3
  else concept.data.length > 3 && !(conceptStopWords.contains concept)

/-- Adjacent-pair bigrams `tokens[i] + ' ' + tokens[i+1]`. -/
def bigramsOf : List String → List String
  | a :: b :: rest => (a ++ " " ++ b) :: bigramsOf (b :: rest)
  | _ => []

/-- Adjacent-triple trigrams. -/
def trigramsOf : List String → List String
  | a :: b :: c :: rest => (a ++ " " ++ b ++ " " ++ c) :: trigramsOf (b :: c :: rest)
  | _ => []

open scoped Classical in
/-- Concept extraction, `SemanticAnalyzer.extractConcepts`: significant 1- to
3-grams scored by average component TF-IDF over the single-document corpus,
top 10 (duplicate n-grams are kept, as in the source). -/
noncomputable def extractConcepts (t : ThoughtData) : List String :=
  let tokens := thoughtTokens t.thought
  let ngrams := tokens.filter isSignificantConcept ++
    (bigramsOf tokens).filter isSignificantConcept ++
    (trigramsOf tokens).filter isSignificantConcept
  let doc := jsSplitWs (joinSpace tokens)
  let scoredNgrams := ngrams.map fun ngram =>
    let ngramTokens := jsSplitEvery (fun c => c = ' ') ngram
    (ngram, ((ngramTokens.map fun tok => tfidfOf [doc] tok 0).sum) /
      (ngramTokens.length : ℝ))
  ((stableSortBy (fun a b : String × ℝ => a.2 > b.2) scoredNgrams).take
    10).map Prod.fst

open scoped Classical in
/-- Distinct terms of document `i` in the order produced by
`TfIdf.listTerms`: first-occurrence order resorted descending by that
document's TF-IDF. -/
noncomputable def listTermsOf (docs : List (List String)) (i : ℕ) :
    List String :=
  match docs.get? i with
  | none => []
  | some doc =>
    (stableSortBy (fun a b : String × ℝ => a.2 > b.2)
      ((jsDedup doc).map fun term => (term, tfidfOf docs term i))).map Prod.fst

open scoped Classical in
/-- Topic labelling keywords of a cluster,
`SemanticAnalyzer.extractTopicKeywords`: top 5 terms by average TF-IDF across
the cluster documents. -/
noncomputable def extractTopicKeywords (thoughts : List ThoughtData) :
    List String :=
  let docs := thoughts.map fun t => thoughtTokens t.thought
  let uniqueTerms :=
    jsDedup ((List.range docs.length).map (listTermsOf docs)).flatten
  let terms := uniqueTerms.map fun term =>
    (term, ((List.range thoughts.length).map fun docIndex =>
      tfidfOf docs term docIndex).sum / (thoughts.length : ℝ))
  ((stableSortBy (fun a b : String × ℝ => a.2 > b.2) terms).take 5).map
    Prod.fst

/-- Similarity matrix entry of `clusterThoughtsByTopic`: 1 on the diagonal,
pairwise similarity off it. -/
noncomputable def simMatrixEntry (thoughts : List ThoughtData) (i j : ℕ) :
    ℝ :=
  if i = j then 1.0
  else analyzeSemanticSimilarity (thoughts.getD i default)
    (thoughts.getD j default)

/-- Fold state of the greedy clustering pass.  `namesGenerated` is ghost
instrumentation recording the topic names in generation order (it is not part
of the source state and influences nothing); it lets theorems state the
absence of topic-name collisions, under which the record assignment
`clusters[topicName] = cluster` never overwrites. -/
structure ClusterState : Type where
  clusters : List (String × List ThoughtData)
  processed : List ℚ
  clusterCount : ℕ
  namesGenerated : List String

open scoped Classical in
/-- One iteration of `clusterThoughtsByTopic` over thought index `i`: skip
already-processed thought numbers, otherwise gather every unprocessed thought
with matrix similarity above 0.6 (always at least the seed itself), name the
cluster by its top-2 topic keywords (or `topic_N`), store it and mark its
members processed. -/
noncomputable def clusterStep (thoughts : List ThoughtData)
    (st : ClusterState) (i : ℕ) : ClusterState :=
  let t := thoughts.getD i default
  if t.thoughtNumber ∈ st.processed then st
  else
    let cluster := (thoughts.enum.filter fun p =>
      p.2.thoughtNumber ∉ st.processed ∧
        simMatrixEntry thoughts i p.1 > 0.6).map Prod.snd
    if cluster.length > 0 then
      let topicKeywords := extractTopicKeywords cluster
      let topicName :=
        if topicKeywords.length > 0 then joinSep "_" (topicKeywords.take 2)
        else "topic_" ++ toString (st.clusterCount + 1)
      { clusters := recordSet st.clusters topicName cluster
        processed := st.processed ++ cluster.map (fun u => u.thoughtNumber)
        clusterCount := st.clusterCount + 1
        namesGenerated := st.namesGenerated ++ [topicName] }
    else st

/-- Full clustering fold over all thought indices. -/
noncomputable def clusterFoldResult (thoughts : List ThoughtData) :
    ClusterState :=
  (List.range thoughts.length).foldl (clusterStep thoughts) ⟨[], [], 0, []⟩

/-- Greedy topic clustering, `SemanticAnalyzer.clusterThoughtsByTopic`. -/
noncomputable def clusterThoughtsByTopic (thoughts : List ThoughtData) :
    List (String × List ThoughtData) :=
  (clusterFoldResult thoughts).clusters

/-- Ghost observation: the topic names generated during the clustering pass,
in order. -/
noncomputable def clusterNamesGenerated (thoughts : List ThoughtData) :
    List String :=
  (clusterFoldResult thoughts).namesGenerated

/-! ## ContradictionDetector (src/unnamed/part_000) -/

/-- Result of `ContradictionDetector.checkContradictions`. -/
structure ContradictionReport : Type where
  hasContradictions : Bool
  details : List ContradictionDetail
deriving Repr

/-- The fixed opposing classification pairs; the source also accepts each pair
reversed (`pair.split(':').reverse().flatten(':')`), checked here directly. -/
def hasOpposingClassifications (t1 t2 : ThoughtData) : Bool :=
  let opposingPairs : List String :=
    ["hypothesis:conclusion", "question:solution", "observation:conclusion"]
  match t1.classification, t2.classification with
  | some c1, some c2 =>
    opposingPairs.contains (classToString c1 ++ ":" ++ classToString c2) ||
      opposingPairs.contains (classToString c2 ++ ":" ++ classToString c1)
  | _, _ => false

/-- Negation words of the conclusion-conflict check. -/
def negationWords : List String :=
  ["not", "never", "no", "cannot", "don\x27t", "doesn\x27t"]

/-- Word-level negation test, `containsNegation`: the lowercased text is split
on single spaces. -/
def containsNegation (text : String) (words : List String) : Bool :=
  (jsSplitEvery (fun c => c = ' ') (jsToLower text)).any
    fun w => words.contains w

/-- Conflicting conclusions: both thoughts classified `conclusion` and exactly
one containing a negation word. -/
def hasConflictingConclusions (t1 t2 : ThoughtData) : Bool :=
  if t1.classification ≠ some .conclusion ∨
      t2.classification ≠ some .conclusion then false
  else containsNegation t1.thought negationWords !=
    containsNegation t2.thought negationWords

/-- Literal-negation conflict between two assumptions: equal up to case after
stripping a leading `not ` from exactly one of them. -/
def areAssumptionsConflicting (a1 a2 : String) : Bool :=
  let negated1 := jsStartsWith (jsToLower a1) "not "
  let negated2 := jsStartsWith (jsToLower a2) "not "
  let base1 := if negated1 then jsDrop a1 4 else a1
  let base2 := if negated2 then jsDrop a2 4 else a2
  jsToLower base1 = jsToLower base2 && negated1 != negated2

/-- Assumption-conflict explanation,
`ContradictionDetector.checkAssumptionConflicts`: the conflicting assumptions
of the first thought, comma-joined. -/
def checkAssumptionConflicts (t1 t2 : ThoughtData) : Option String :=
  match t1.assumptions, t2.assumptions with
  | some as1, some as2 =>
    let conflicts := as1.filter fun a1 =>
      as2.any fun a2 => areAssumptionsConflicting a1 a2
    if conflicts.length > 0 then some (joinSep ", " conflicts) else none
  | _, _ => none

open scoped Classical in
/-- Pairwise contradiction detection,
`ContradictionDetector.detectContradiction`: only thought pairs with
similarity above 0.5 are examined; the three signals are checked in order. -/
noncomputable def detectContradiction (t1 t2 : ThoughtData) : Option String :=
  if analyzeSemanticSimilarity t1 t2 > 0.5 then
    if hasOpposingClassifications t1 t2 then
      some ("Opposing classifications: " ++
        (t1.classification.map classToString).getD "undefined" ++ " vs " ++
        (t2.classification.map classToString).getD "undefined")
    else if hasConflictingConclusions t1 t2 then
      some "Conflicting conclusions detected"
    else
      match checkAssumptionConflicts t1 t2 with
      | some conflicts => some ("Conflicting assumptions: " ++ conflicts)
      | none => none
  else none

/-- Contradiction check of a new thought against the history,
`ContradictionDetector.checkContradictions`: a revision is never the subject,
and revisions and same-numbered thoughts are skipped as targets. -/
noncomputable def checkContradictions (newThought : ThoughtData)
    (existingThoughts : List ThoughtData) : ContradictionReport :=
  if truthyB newThought.isRevision then
    { hasContradictions := false, details := [] }
  else
    let contradictions := existingThoughts.filterMap fun existingThought =>
      if truthyB existingThought.isRevision ∨
          existingThought.thoughtNumber = newThought.thoughtNumber then none
      else
        (detectContradiction newThought existingThought).map fun explanation =>
          { thoughtNumber := existingThought.thoughtNumber,
            explanation := explanation }
    { hasContradictions := !contradictions.isEmpty,
      details := contradictions }

/-! ## ReflectionEngine (src/dist/analytics bundle) -/

open scoped Classical in
/-- Context-aware reflection prompts
(`ReflectionEngine.generateContextAwarePrompts`). -/
noncomputable def generateContextAwarePrompts (currentThought : ThoughtData)
    (allThoughts : List ThoughtData) : List String :=
  let depPrompt :=
    match currentThought.dependencies with
    | some deps =>
      if deps.length > 0 then "How do the dependencies influence this thought?"
      else "How does this thought connect to previous thinking?"
    | none => "How does this thought connect to previous thinking?"
  let similarThoughts := allThoughts.filter fun t =>
    t.thoughtNumber ≠ currentThought.thoughtNumber ∧
      analyzeSemanticSimilarity t currentThought > 0.5
  if similarThoughts.length > 0 then
    [depPrompt,
     "How does this thought align with or differ from similar previous thoughts?"]
  else [depPrompt]

/-- Phase-specific reflection prompt table. -/
def generatePhaseSpecificPrompts : Phase → List String
  | .Planning =>
    ["What potential obstacles have been considered?",
     "Are there any missing steps in the plan?",
     "How flexible is this plan to changes?"]
  | .Analysis =>
    ["What other angles of analysis could be explored?",
     "Are there any hidden patterns or relationships?",
     "What methods of analysis might yield different insights?"]
  | .Execution =>
    ["What risks or challenges might arise during execution?",
     "Are there alternative approaches to implementation?",
     "How can the execution be optimized?"]
  | .Verification =>
    ["What criteria are being used for verification?",
     "How comprehensive is the verification process?",
     "What edge cases should be considered?"]

/-- Classification-specific reflection prompt table. -/
def generateClassificationPrompts : Classification → List String
  | .hypothesis =>
    ["What evidence would support or refute this hypothesis?",
     "What alternative hypotheses should be considered?"]
  | .observation =>
    ["What factors might influence this observation?",
     "How reliable is this observation?"]
  | .conclusion =>
    ["What assumptions led to this conclusion?",
     "How strong is the evidence supporting this conclusion?"]
  | .question =>
    ["What assumptions underlie this question?",
     "Are there related questions to consider?"]
  | .solution =>
    ["What are the limitations of this solution?",
     "How might this solution be improved?"]

/-- Quality-based reflection prompts. -/
def generateQualityBasedPrompts (q : Quality) : List String :=
  (if q.coherence < 7 then
    ["How could this thought be better connected to the overall context?"]
  else []) ++
  (if q.depth < 7 then
    ["What deeper aspects of this thought could be explored?"]
  else []) ++
  (if q.relevance < 7 then
    ["How could this thought be made more relevant to the main goal?"]
  else [])

/-- Prompt prioritization: deduplicate, stable sort descending by length, top
5. -/
def prioritizePrompts (prompts : List String) : List String :=
  ((stableSortBy (fun a b : String => a.data.length > b.data.length)
    (jsDedup prompts)).take 5)

/-- Reflection prompt generation,
`ReflectionEngine.generateReflectionPrompts`; always called on a nonempty
list, whose last element is the incoming thought. -/
noncomputable def generateReflectionPrompts (thoughts : List ThoughtData) :
    List String :=
  match thoughts.getLast? with
  | none => prioritizePrompts []
  | some latestThought =>
    let prompts := generateContextAwarePrompts latestThought thoughts ++
      (match latestThought.phase with
       | some p => generatePhaseSpecificPrompts p
       | none => []) ++
      (match latestThought.classification with
       | some c => generateClassificationPrompts c
       | none => []) ++
      (match latestThought.quality with
       | some q => generateQualityBasedPrompts q
       | none => [])
    prioritizePrompts prompts

/-- Assumption-indicator phrases of `identifyAssumptions`. -/
def assumptionIndicators : List String :=
  ["assume", "assuming", "must be", "should be", "probably",
   "likely", "always", "never", "everyone", "nobody", "clearly",
   "obviously", "naturally", "of course"]

/-- Leading phrases stripped by `cleanAssumption` (a case-insensitive anchored
alternation; the first alternative matching at the start wins). -/
def cleanAssumptionPrefixes : List String :=
  ["assuming", "we assume", "it is assumed", "clearly", "obviously",
   "naturally", "of course", "must be", "should be"]

/-- Assumption cleanup, `ReflectionEngine.cleanAssumption`. -/
def cleanAssumption (text : String) : String :=
  let trimmed := jsTrim text
  match cleanAssumptionPrefixes.findSome? fun p =>
    if jsStartsWith (jsToLower trimmed) p then some p else none with
  | some p => jsTrim (jsDrop trimmed p.data.length)
  | none => trimmed

/-- Implicit assumptions by classification. -/
def getImplicitAssumptions : Classification → List String
  | .hypothesis => ["The variables being considered are the most relevant ones"]
  | .observation => ["The observation is representative of the general case"]
  | .conclusion => ["The available evidence is sufficient for this conclusion"]
  | .question => ["This question addresses a significant aspect of the problem"]
  | .solution => ["The solution is feasible to implement"]

/-- Assumption identification, `ReflectionEngine.identifyAssumptions`:
sentences of the lowercased text containing an indicator, cleaned, plus the
implicit assumptions of the classification, deduplicated. -/
def identifyAssumptions (t : ThoughtData) : List String :=
  let text := jsToLower t.thought
  let sentences := splitRuns sentencePunc text.data
  let assumptions := (sentences.filter fun sentence =>
    assumptionIndicators.any fun ind => jsIncludes sentence ind).map
    cleanAssumption
  jsDedup (assumptions ++
    (match t.classification with
     | some c => getImplicitAssumptions c
     | none => []))

/-! ## SequentialThinkingServer (src/unnamed/part_003) -/

/-- The untyped ingress payload of `processThought`.  The four required
fields are raw JSON values (possibly missing or mistyped); the optional
fields are read only through unchecked casts and therefore carry their cast
types, with `none` for absent. -/
structure RawInput : Type where
  thought : Option JSValue := none
  thoughtNumber : Option JSValue := none
  totalThoughts : Option JSValue := none
  nextThoughtNeeded : Option JSValue := none
  isRevision : Option Bool := none
  revisesThought : Option ℚ := none
  branchFromThought : Option ℚ := none
  branchId : Option String := none
  needsMoreThoughts : Option Bool := none
  phase : Option Phase := none
  dependencies : Option (List ℚ) := none
  toolsUsed : Option (List String) := none
  complexity : Option Complexity := none
  status : Option Status := none
  quality : Option Quality := none
  keywords : Option (List String) := none
  insightValue : Option ℚ := none
  classification : Option Classification := none
  confidenceScore : Option ℚ := none
  evidenceStrength : Option ℚ := none

/-- Input validation, `SequentialThinkingServer.validateThoughtData`: the four
required fields must be truthy (for the booleans, merely present) values of
the right type, otherwise the whole request fails with the corresponding
message. -/
def validateThoughtData (data : RawInput) : Except String ThoughtData :=
  if !truthy data.thought || !isStringV data.thought then
    .error "Invalid thought: must be a string"
  else if !truthy data.thoughtNumber || !isNumberV data.thoughtNumber then
    .error "Invalid thoughtNumber: must be a number"
  else if !truthy data.totalThoughts || !isNumberV data.totalThoughts then
    .error "Invalid totalThoughts: must be a number"
  else if !isBooleanV data.nextThoughtNeeded then
    .error "Invalid nextThoughtNeeded: must be a boolean"
  else
    .ok
      { thought := asString data.thought
        thoughtNumber := asNumber data.thoughtNumber
        totalThoughts := asNumber data.totalThoughts
        nextThoughtNeeded := asBoolean data.nextThoughtNeeded
        isRevision := data.isRevision
        revisesThought := data.revisesThought
        branchFromThought := data.branchFromThought
        branchId := data.branchId
        needsMoreThoughts := data.needsMoreThoughts
        phase := data.phase
        dependencies := data.dependencies
        toolsUsed := data.toolsUsed
        complexity := data.complexity
        status := data.status
        quality := data.quality
        keywords := data.keywords
        insightValue := data.insightValue
        classification := data.classification
        confidenceScore := data.confidenceScore
        evidenceStrength := data.evidenceStrength }

/-- Per-tool usage statistics. -/
structure ToolUsageStats : Type where
  usageCount : ℕ
  thoughtsUsedIn : List ℚ
  phaseUsage : List (String × ℕ)
deriving Repr

/-- The mutable state of a `SequentialThinkingServer` instance.
`promptContext` is the metadata slot of the `PromptContext` component (`none`
until `initializeWithPrompt` runs). -/
structure ServerState : Type where
  thoughtHistory : List ThoughtData
  branches : List (String × List ThoughtData)
  availableTools : List String
  toolUsageStats : List (String × ToolUsageStats)
  promptContext : Option PromptMetadata

/-- The freshly constructed server. -/
def initialServerState : ServerState :=
  { thoughtHistory := []
    branches := []
    availableTools := ["sequentialthinking"]
    toolUsageStats := []
    promptContext := none }

/-- Tool-usage bookkeeping, `SequentialThinkingServer.trackToolUsage`:
for each used tool, create-or-update its counters (the per-phase keys are
pre-initialized, so the increment always finds its key). -/
def trackToolUsage (t : ThoughtData)
    (stats : List (String × ToolUsageStats)) :
    List (String × ToolUsageStats) :=
  match t.toolsUsed with
  | none => stats
  | some tools =>
    if tools.length = 0 then stats
    else tools.foldl (fun st tool =>
      let cur := (recordGet st tool).getD
        { usageCount := 0, thoughtsUsedIn := [],
          phaseUsage := [("Planning", 0), ("Analysis", 0), ("Execution", 0),
            ("Verification", 0)] }
      let cur := { cur with usageCount := cur.usageCount + 1 }
      let cur :=
        { cur with thoughtsUsedIn := cur.thoughtsUsedIn ++ [t.thoughtNumber] }
      let cur := match t.phase with
        | some p =>
          let pu := recordSet cur.phaseUsage (phaseToString p)
            ((recordGet cur.phaseUsage (phaseToString p)).getD 0 + 1)
          { cur with phaseUsage := pu }
        | none => cur
      recordSet st tool cur) stats

/-- Session-complexity estimate from history patterns,
`SequentialThinkingServer.estimateComplexity`. -/
def estimateSessionComplexity (history : List ThoughtData)
    (branches : List (String × List ThoughtData)) : Complexity :=
  let thoughtCount := history.length
  let revisionCount := (history.filter fun t => truthyB t.isRevision).length
  let branchCount := branches.length
  if thoughtCount > 10 ∨ branchCount > 2 then .complex
  else if thoughtCount > 5 ∨ revisionCount > 1 ∨ branchCount > 0 then .medium
  else .simple

/-- Next-phase suggestion, `SequentialThinkingServer.suggestNextPhase`: the
store only suggests, by progress thresholds. -/
def suggestNextPhase (t : ThoughtData) : String :=
  let progress := t.thoughtNumber / t.totalThoughts
  match t.phase with
  | some .Planning => if progress > 0.2 then "Analysis" else "Planning"
  | some .Analysis => if progress > 0.4 then "Execution" else "Analysis"
  | some .Execution => if progress > 0.8 then "Verification" else "Execution"
  | some p => phaseToString p
  | none => "Execution"

/-- Last-`count` thought summaries,
`SequentialThinkingServer.getRecentThoughts`: thought texts over 50
characters are truncated with an ellipsis. -/
def getRecentThoughts (history : List ThoughtData) (count : ℕ) :
    List (ℚ × String) :=
  (history.drop (history.length - count)).map fun t =>
    (t.thoughtNumber,
      if t.thought.data.length > 50 then jsTake t.thought 50 ++ "..."
      else t.thought)

/-- Goal-coverage percentages,
`SequentialThinkingServer.calculateGoalCoverage`: for each goal index, the
share of thoughts whose `promptRelevance` records a `goal_<i>` score above
0.5 (the pipeline only ever writes the keys `goals`/`constraints`/`domains`,
so these lookups find nothing, faithfully to the source). -/
def calculateGoalCoverage (history : List ThoughtData)
    (meta : PromptMetadata) : List (String × ℚ) :=
  meta.goals.enum.foldl (fun coverage p =>
    let relevantThoughts := history.filter fun t =>
      match t.promptRelevance with
      | none => false
      | some pr =>
        match recordGet pr ("goal_" ++ toString p.1) with
        | none => false
        | some score => score > 0.5
    let denom : ℚ := ((jsMaxN 2 (match meta.complexity with
      | .simple => 3
      | .medium => 5
      | .complex => 8) : ℕ) : ℚ)
    let pct := jsMin 100 (jsRound (((relevantThoughts.length : ℚ) / denom) * 100))
    recordSet coverage ("goal_" ++ toString p.1) pct) []

/-- Alignment-trend label, `SequentialThinkingServer.calculateAlignmentTrend`:
the difference between the last and first of the last five aligned thoughts
(sorted by thought number), with a +-1 threshold. -/
def calculateAlignmentTrend (history : List ThoughtData) : String :=
  let alignedThoughts := stableSortBy
    (fun a b : ThoughtData => a.thoughtNumber < b.thoughtNumber)
    (history.filter fun t => t.promptAlignment.isSome)
  if alignedThoughts.length < 3 then "Insufficient data"
  else
    let recentThoughts :=
      alignedThoughts.drop (alignedThoughts.length - 5)
    let firstScore := ((recentThoughts.headD default).promptAlignment).getD 0
    let lastScore := ((recentThoughts.getLastD default).promptAlignment).getD 0
    let difference := lastScore - firstScore
    if difference > 1 then "Improving"
    else if difference < -1 then "Declining"
    else "Stable"

/-- The latest thought by number (reduce with the head as accumulator). -/
def latestThoughtOf (history : List ThoughtData) : ThoughtData :=
  history.foldl
    (fun latest current =>
      if current.thoughtNumber > latest.thoughtNumber then current else latest)
    (history.headD default)

/-- Overall-progress metric,
`SequentialThinkingServer.calculateOverallProgress`: a weighted blend of
thought-number progress, average alignment, goal coverage and
phase weight, rounded. -/
def calculateOverallProgress (history : List ThoughtData)
    (meta : PromptMetadata) : ℚ :=
  if history.length = 0 then 0
  else
    let latestThought := latestThoughtOf history
    let thoughtProgress :=
      jsMin 100 (latestThought.thoughtNumber / latestThought.totalThoughts * 100)
    let alignmentScores := (history.filter fun t =>
      t.promptAlignment.isSome).map fun t => t.promptAlignment.getD 0
    let avgAlignment : ℚ :=
      if alignmentScores.length > 0 then
        alignmentScores.sum / (alignmentScores.length : ℚ)
      else 5
    let coverage := calculateGoalCoverage history meta
    let goalCoverage : ℚ :=
      (coverage.map Prod.snd).sum / ((jsMaxN 1 coverage.length : ℕ) : ℚ)
    let phaseWeight : ℚ := match latestThought.phase with
      | some .Planning => 0.1
      | some .Analysis => 0.3
      | some .Execution => 0.5
      | some .Verification => 0.9
      | none => 0.5
    let phaseProgress := phaseWeight * 100
    jsRound (thoughtProgress * 0.3 + avgAlignment * 10 * 0.3 +
      goalCoverage * 0.3 + phaseProgress * 0.1)

/-- Remaining-thought estimate,
`SequentialThinkingServer.estimateRemainingThoughts`. -/
def estimateRemainingThoughts (history : List ThoughtData)
    (meta : PromptMetadata) : ℚ :=
  if history.length = 0 then 0
  else
    let latestThought := latestThoughtOf history
    let progress := calculateOverallProgress history meta
    if progress < 10 then
      match meta.complexity with
      | .simple => 5
      | .medium => 8
      | .complex => 12
    else
      let estimatedTotal :=
        jsCeil (latestThought.thoughtNumber * 100 / jsMax 1 progress)
      jsMax 0 (estimatedTotal - latestThought.thoughtNumber)

/-- Prompt-progress sub-record of the response. -/
structure PromptProgress : Type where
  overallProgress : ℚ
  estimatedRemainingThoughts : ℚ
  goalCoverage : List (String × ℚ)
  alignmentTrend : String

/-- The JSON payload returned by a successful `processThought` call (the
console renderings, the progress string formatting and the
`strategicGuidance` advisory strings are display-only and not modelled; the
`semanticAnalysis` sub-object is flattened into its four fields). -/
structure ProcessResponse : Type where
  thoughtNumber : ℚ
  totalThoughts : ℚ
  nextThoughtNeeded : Bool
  branches : List String
  thoughtHistoryLength : ℕ
  availableTools : List String
  phase : Option Phase
  complexity : Complexity
  progress : ℚ
  recentThoughts : List (ℚ × String)
  suggestedNextPhase : String
  thoughtQuality : Option Quality
  toolUsageStats : List (String × ToolUsageStats)
  keywords : Option (List String)
  insightValue : Option ℚ
  concepts : Option (List String)
  contradictions : Option (List ContradictionDetail)
  assumptions : Option (List String)
  reflectionPrompts : Option (List String)
  promptAlignment : Option ℚ
  promptRelevance : Option (List (String × ℚ))
  driftWarning : Option String
  suggestedCorrections : Option (List String)
  intelligenceRecommendations : Option IntelligenceRecommendations
  promptProgress : Option PromptProgress

/-- Result of a `processThought` call: either the response payload or the
error object `{error: <message>, status: "failed"}` (returned with
`isError: true`). -/
inductive ProcessResult : Type
  | ok : ProcessResponse → ProcessResult
  | err : String → ProcessResult

/-- The enrichment pipeline applied to a validated thought before it is
appended (lines 502-626 of `processThought`): auto-adjust `totalThoughts` up
to the thought number, default the phase (Planning for thought 1, Execution
otherwise), attach vector, concepts, contradictions, reflection prompts and
assumptions, then, when a prompt context exists, alignment data and
intelligence recommendations, finally raising `totalThoughts` to the
recommended count if larger. -/
noncomputable def enrichThought (s : ServerState) (v0 : ThoughtData) :
    ThoughtData :=
  let v := if v0.thoughtNumber > v0.totalThoughts then
    { v0 with totalThoughts := v0.thoughtNumber } else v0
  let v := if v.phase.isNone then
    { v with phase := some (if v.thoughtNumber = 1 then Phase.Planning
      else Phase.Execution) } else v
  let v := { v with vector := some (buildThoughtVectors v) }
  let v := { v with conceptsExtracted := some (extractConcepts v) }
  let contradictionsReport := checkContradictions v s.thoughtHistory
  let v := if contradictionsReport.hasContradictions then
    { v with contradictions := some contradictionsReport.details } else v
  let rp := generateReflectionPrompts (s.thoughtHistory ++ [v])
  let v := { v with reflectionPrompts := some rp }
  let v := { v with assumptions := some (identifyAssumptions v) }
  match s.promptContext with
  | none => v
  | some promptMetadata =>
    let alignmentData := analyzeThoughtAlignment v.thought promptMetadata
    let v := { v with
      promptAlignment := some alignmentData.promptAlignment
      promptRelevance := some alignmentData.promptRelevance
      driftWarning := alignmentData.driftWarning
      suggestedCorrections := alignmentData.suggestedCorrections }
    let recommendations := generateRecommendations promptMetadata
      v.thoughtNumber v.totalThoughts v.phase
    let v := { v with intelligenceRecommendations := some recommendations }
    if recommendations.complexityEstimation.recommendedThoughtCount >
        v.totalThoughts then
      { v with totalThoughts :=
        recommendations.complexityEstimation.recommendedThoughtCount }
    else v

/-- One `processThought` call, `SequentialThinkingServer.processThought`:
validation failure returns the error object with the store untouched;
otherwise the enriched thought is appended to the history (and to its branch
when `branchFromThought` and `branchId` are truthy), tool usage is tracked,
and the response is assembled. -/
noncomputable def processThought (s : ServerState) (input : RawInput) :
    ProcessResult × ServerState :=
  match validateThoughtData input with
  | .error msg => (.err msg, s)
  | .ok v0 =>
    let v := enrichThought s v0
    let history := s.thoughtHistory ++ [v]
    let branches :=
      match v.branchFromThought, v.branchId with
      | some bft, some bid =>
        if bft ≠ 0 ∧ bid ≠ "" then
          recordSet s.branches bid ((recordGet s.branches bid).getD [] ++ [v])
        else s.branches
      | _, _ => s.branches
    let stats := trackToolUsage v s.toolUsageStats
    let s' : ServerState :=
      { s with
        thoughtHistory := history
        branches := branches
        toolUsageStats := stats }
    let progress := v.thoughtNumber / v.totalThoughts * 100
    let response : ProcessResponse :=
      { thoughtNumber := v.thoughtNumber
        totalThoughts := v.totalThoughts
        nextThoughtNeeded := v.nextThoughtNeeded
        branches := recordKeys branches
        thoughtHistoryLength := history.length
        availableTools := s.availableTools
        phase := v.phase
        complexity := v.complexity.getD
          (estimateSessionComplexity history branches)
        progress := progress
        recentThoughts := getRecentThoughts history 3
        suggestedNextPhase := suggestNextPhase v
        thoughtQuality := v.quality
        toolUsageStats := stats
        keywords := v.keywords
        insightValue := v.insightValue
        concepts := v.conceptsExtracted
        contradictions := v.contradictions
        assumptions := v.assumptions
        reflectionPrompts := v.reflectionPrompts
        promptAlignment := v.promptAlignment
        promptRelevance := v.promptRelevance
        driftWarning := v.driftWarning
        suggestedCorrections := v.suggestedCorrections
        intelligenceRecommendations := v.intelligenceRecommendations
        promptProgress := match s.promptContext with
          | some meta => some
            { overallProgress := calculateOverallProgress history meta
              estimatedRemainingThoughts :=
                estimateRemainingThoughts history meta
              goalCoverage := calculateGoalCoverage history meta
              alignmentTrend := calculateAlignmentTrend history }
          | none => none }
    (.ok response, s')

/-- One request of the `CallToolRequestSchema` handler for the
`sequentialthinking` tool (src/unnamed/part_003, lines 1260-1271): whenever
the raw `thoughtNumber` field is the number 1, `initializePromptContext` is
run on the raw `thought` field before `processThought`.  A non-string
`thought` would make the prompt analyzer throw outside the guarded
`processThought`; that uncaught crash is modelled as `none`. -/
noncomputable def handleCallTool (s : ServerState) (input : RawInput) :
    Option (ProcessResult × ServerState) :=
  if input.thoughtNumber = some (.vNum 1) then
    match input.thought with
    | some (.vStr t) =>
      some (processThought { s with promptContext := some (analyzePrompt t) }
        input)
    | _ => none
  else some (processThought s input)

/-- A session continuation: the handler applied to each submission in turn
(with `none` propagating a handler crash). -/
noncomputable def runSessionFrom (s : ServerState) :
    List RawInput → Option ServerState
  | [] => some s
  | i :: rest =>
    match handleCallTool s i with
    | none => none
    | some p => runSessionFrom p.2 rest

/-- A whole session: the handler applied to a list of raw submissions
starting from the fresh server. -/
noncomputable def runSession (inputs : List RawInput) : Option ServerState :=
  runSessionFrom initialServerState inputs

/-- Observable projection: the priority of the session profile after a list
of submissions (`none` = crash, `some none` = no profile). -/
noncomputable def sessionProfilePriority (inputs : List RawInput) :
    Option (Option Priority) :=
  (runSession inputs).map fun s => s.promptContext.map PromptMetadata.priority

/-- Observable projection: the profile after one handler call. -/
noncomputable def handledPromptContext (s : ServerState) (input : RawInput) :
    Option (Option PromptMetadata) :=
  (handleCallTool s input).map fun p => p.2.promptContext

/-- Observable projection: the `totalThoughts` field reported by one
`processThought` call (`none` on the error path). -/
noncomputable def responseTotalThoughts (s : ServerState) (input : RawInput) :
    Option ℚ :=
  match (processThought s input).1 with
  | .ok r => some r.totalThoughts
  | .err _ => none

/-- Observable projection: the `phase` field reported by one
`processThought` call. -/
noncomputable def responsePhase (s : ServerState) (input : RawInput) :
    Option (Option Phase) :=
  match (processThought s input).1 with
  | .ok r => some r.phase
  | .err _ => none

/-! ## Helper lemmas about the embedding -/

/-- A passed first validation guard forces a nonempty string. -/
lemma thought_shape_of_guard (o : Option JSValue)
    (h : (!truthy o || !isStringV o) = false) :
    ∃ s, o = some (.vStr s) ∧ s ≠ "" := by
  match o with
  | none => simp [truthy, isStringV] at h
  | some .vNull => simp [truthy, isStringV] at h
  | some (.vNum q) => simp [truthy, isStringV] at h
  | some (.vBool b) => simp [truthy, isStringV] at h
  | some (.vStr s) =>
    refine ⟨s, rfl, ?_⟩
    simp only [truthy, isStringV, Bool.not_true, Bool.or_false,
      Bool.not_eq_false'] at h
    intro hs
    rw [hs] at h
    simp [String.isEmpty] at h

/-- A passed numeric validation guard forces a number. -/
lemma number_shape_of_guard (o : Option JSValue)
    (h : (!truthy o || !isNumberV o) = false) :
    ∃ q : ℚ, o = some (.vNum q) := by
  match o with
  | none => simp [truthy, isNumberV] at h
  | some .vNull => simp [truthy, isNumberV] at h
  | some (.vStr s) => simp [truthy, isNumberV] at h
  | some (.vBool b) => simp [truthy, isNumberV] at h
  | some (.vNum q) => exact ⟨q, rfl⟩

/-- A passed boolean validation guard forces a boolean. -/
lemma boolean_shape_of_guard (o : Option JSValue)
    (h : (!isBooleanV o) = false) : ∃ b : Bool, o = some (.vBool b) := by
  match o with
  | none => simp [isBooleanV] at h
  | some .vNull => simp [isBooleanV] at h
  | some (.vStr s) => simp [isBooleanV] at h
  | some (.vNum q) => simp [isBooleanV] at h
  | some (.vBool b) => exact ⟨b, rfl⟩

/-- Neither branch of `processThought` touches the prompt context. -/
lemma processThought_promptContext (s : ServerState) (input : RawInput) :
    (processThought s input).2.promptContext = s.promptContext := by
  unfold processThought
  cases hv : validateThoughtData input <;> simp

/-- The stored phase after enrichment: defaulted to Planning for thought 1 and
Execution otherwise when absent, untouched when supplied. -/
lemma enrichThought_phase (s : ServerState) (v : ThoughtData) :
    (enrichThought s v).phase =
      if v.phase.isNone then
        some (if v.thoughtNumber = 1 then Phase.Planning else Phase.Execution)
      else v.phase := by
  unfold enrichThought
  cases hctx : s.promptContext <;> split_ifs <;>
    simp_all [apply_ite ThoughtData.phase]

/-- The stored total after enrichment: the submitted total raised to the
thought number, then raised to the recommended thought count when a prompt
context exists. -/
lemma enrichThought_totalThoughts (s : ServerState) (v : ThoughtData) :
    (enrichThought s v).totalThoughts =
      (let t1 := if v.thoughtNumber > v.totalThoughts then v.thoughtNumber
        else v.totalThoughts
      match s.promptContext with
      | none => t1
      | some meta =>
        max ((estimateDetailedComplexity meta).recommendedThoughtCount) t1) := by
  unfold enrichThought
  cases hctx : s.promptContext <;> split_ifs <;>
    simp_all [generateRecommendations, apply_ite ThoughtData.totalThoughts,
      max_def] <;> split_ifs <;> first | rfl | linarith

/-- The successful path of `processThought`, split into its observable
components. -/
lemma processThought_ok (s : ServerState) (input : RawInput) (v : ThoughtData)
    (hok : validateThoughtData input = Except.ok v) :
    (processThought s input).2.thoughtHistory =
      s.thoughtHistory ++ [enrichThought s v] ∧
    responseTotalThoughts s input = some (enrichThought s v).totalThoughts ∧
    responsePhase s input = some (enrichThought s v).phase := by
  unfold processThought responseTotalThoughts responsePhase
  rw [hok]
  unfold processThought
  rw [hok]
  simp

/-! ## Claim theorems -/

/-- C1: for every input submitted to `processThought` with a required field
missing or mistyped (thought not a nonempty string, thoughtNumber not a
number, totalThoughts not a number, nextThoughtNeeded not a boolean), the
call returns the error object (`{error, status: "failed"}`, modelled by
`ProcessResult.err`) and the store state is exactly the state before the
call: no partial append occurs. -/
theorem C1_validation_failure_leaves_store_unchanged (s : ServerState)
    (input : RawInput)
    (h : (∀ str : String, ¬(input.thought = some (.vStr str) ∧ str ≠ "")) ∨
      (∀ q : ℚ, input.thoughtNumber ≠ some (.vNum q)) ∨
      (∀ q : ℚ, input.totalThoughts ≠ some (.vNum q)) ∨
      (∀ b : Bool, input.nextThoughtNeeded ≠ some (.vBool b))) :
    (processThought s input).2 = s ∧
      ∃ msg, (processThought s input).1 = ProcessResult.err msg := by
  have hv : ∃ m, validateThoughtData input = Except.error m := by
    unfold validateThoughtData
    by_cases h1 : (!truthy input.thought || !isStringV input.thought) = true
    · exact ⟨_, by rw [if_pos h1]⟩
    · rw [if_neg (by simp [h1])]
      have hs := thought_shape_of_guard input.thought
        (Bool.eq_false_iff.mpr (fun hc => h1 hc))
      by_cases h2 :
          (!truthy input.thoughtNumber || !isNumberV input.thoughtNumber) = true
      · exact ⟨_, by rw [if_pos h2]⟩
      · rw [if_neg (by simp [h2])]
        have hn := number_shape_of_guard input.thoughtNumber
          (Bool.eq_false_iff.mpr (fun hc => h2 hc))
        by_cases h3 :
            (!truthy input.totalThoughts || !isNumberV input.totalThoughts) = true
        · exact ⟨_, by rw [if_pos h3]⟩
        · rw [if_neg (by simp [h3])]
          have ht := number_shape_of_guard input.totalThoughts
            (Bool.eq_false_iff.mpr (fun hc => h3 hc))
          by_cases h4 : (!isBooleanV input.nextThoughtNeeded) = true
          · exact ⟨_, by rw [if_pos h4]⟩
          · exfalso
            have hb := boolean_shape_of_guard input.nextThoughtNeeded
              (Bool.eq_false_iff.mpr (fun hc => h4 hc))
            rcases h with h | h | h | h
            · obtain ⟨str, hstr, hne⟩ := hs
              exact h str ⟨hstr, hne⟩
            · obtain ⟨q, hq⟩ := hn
              exact h q hq
            · obtain ⟨q, hq⟩ := ht
              exact h q hq
            · obtain ⟨b, hbq⟩ := hb
              exact h b hbq
  obtain ⟨m, hm⟩ := hv
  constructor
  · unfold processThought
    rw [hm]
  · refine ⟨m, ?_⟩
    unfold processThought
    rw [hm]

/-- Witness for C1 at the empty payload and the fresh server. -/
theorem C1_validation_failure_witness :
    (processThought initialServerState {}).2 = initialServerState ∧
      ∃ msg, (processThought initialServerState {}).1 = ProcessResult.err msg :=
  C1_validation_failure_leaves_store_unchanged initialServerState {}
    (Or.inl (by intro str hc; simpa using hc.1))

set_option maxRecDepth 4000 in
/-- C6 (amended): the prompt profile derived from the first thought text
"I must write a Python script that parses CSV files. Urgent." has
taskType "creative" (the word "write" is a creative indicator and no
technical indicator occurs), priority "high", and a nonempty constraints
list. -/
theorem C6_scenarioA_profile :
    (analyzePrompt "I must write a Python script that parses CSV files. Urgent.").taskType
        = TaskType.creative ∧
    (analyzePrompt "I must write a Python script that parses CSV files. Urgent.").priority
        = Priority.high ∧
    (analyzePrompt "I must write a Python script that parses CSV files. Urgent.").constraints
        ≠ [] := by
  refine ⟨?_, ?_, ?_⟩ <;> decide

set_option maxRecDepth 4000 in
/-- Counterexample to C6 as stated: the profile task type is not
"technical" on this prompt. -/
theorem C6_counterexample_taskType_not_technical :
    (analyzePrompt "I must write a Python script that parses CSV files. Urgent.").taskType
      ≠ TaskType.technical := by
  decide

/-- C10: when the optional phase is omitted from a validated submission,
the enrichment pipeline assigns phase Planning exactly for thought number 1
and Execution for every other thought number, before any analysis or
scoring, and that phase is what the response reports. -/
theorem C10_default_phase (s : ServerState) (input : RawInput)
    (v : ThoughtData) (hok : validateThoughtData input = Except.ok v)
    (hph : v.phase = none) :
    (enrichThought s v).phase =
      some (if v.thoughtNumber = 1 then Phase.Planning else Phase.Execution) ∧
    responsePhase s input =
      some (some
        (if v.thoughtNumber = 1 then Phase.Planning else Phase.Execution)) := by
  have h1 := enrichThought_phase s v
  rw [hph] at h1
  simp only [Option.isNone_none, if_true] at h1
  refine ⟨h1, ?_⟩
  have h2 := (processThought_ok s input v hok).2.2
  rw [h2, h1]

/-- Witness input for C10. -/
def c10input : RawInput :=
  { thought := some (.vStr "carry on with the build")
    thoughtNumber := some (.vNum 2)
    totalThoughts := some (.vNum 3)
    nextThoughtNeeded := some (.vBool false) }

/-- Witness validated thought for C10. -/
def c10v : ThoughtData :=
  { thought := "carry on with the build", thoughtNumber := 2,
    totalThoughts := 3, nextThoughtNeeded := false }

/-- Witness for C10: thought number 2 without a phase gets Execution. -/
theorem C10_default_phase_witness :
    validateThoughtData c10input = Except.ok c10v ∧ c10v.phase = none ∧
    (enrichThought initialServerState c10v).phase = some Phase.Execution ∧
    responsePhase initialServerState c10input = some (some Phase.Execution) := by
  refine ⟨rfl, rfl, ?_⟩
  have h := C10_default_phase initialServerState c10input c10v rfl rfl
  have hne : ¬(c10v.thoughtNumber = 1) := by
    show ¬((2 : ℚ) = 1)
    norm_num
  rcases h with ⟨h1, h2⟩
  rw [if_neg hne] at h1 h2
  exact ⟨h1, h2⟩

/-- C2 (amended): within one successful submission, the reported
`totalThoughts` is the submitted total raised to the submitted thought number
if that exceeds it, and raised again to the recommended thought count if a
prompt profile exists and that is larger; it is never below the submitted
total or thought number.  Across a session the reported value is not
monotone (see the counterexample). -/
theorem C2_totalThoughts_within_submission (s : ServerState)
    (input : RawInput) (v : ThoughtData)
    (hok : validateThoughtData input = Except.ok v) :
    responseTotalThoughts s input = some ((enrichThought s v).totalThoughts) ∧
    (enrichThought s v).totalThoughts =
      (match s.promptContext with
       | none => max v.thoughtNumber v.totalThoughts
       | some meta =>
         max ((estimateDetailedComplexity meta).recommendedThoughtCount)
           (max v.thoughtNumber v.totalThoughts)) ∧
    v.totalThoughts ≤ (enrichThought s v).totalThoughts ∧
    v.thoughtNumber ≤ (enrichThought s v).totalThoughts := by
  have hmax : (if v.thoughtNumber > v.totalThoughts then v.thoughtNumber
      else v.totalThoughts) = max v.thoughtNumber v.totalThoughts := by
    rw [max_def]
    split_ifs <;> first | rfl | linarith
  have h2 : (enrichThought s v).totalThoughts =
      (match s.promptContext with
       | none => max v.thoughtNumber v.totalThoughts
       | some meta =>
         max ((estimateDetailedComplexity meta).recommendedThoughtCount)
           (max v.thoughtNumber v.totalThoughts)) := by
    have h := enrichThought_totalThoughts s v
    simp only [hmax] at h
    exact h
  refine ⟨(processThought_ok s input v hok).2.1, h2, ?_, ?_⟩ <;>
    rw [h2] <;> cases s.promptContext <;> simp [le_max_iff]

/-- First counterexample submission for C2 (reported total 100). -/
def c2inputA : RawInput :=
  { thought := some (.vStr "first idea")
    thoughtNumber := some (.vNum 2)
    totalThoughts := some (.vNum 100)
    nextThoughtNeeded := some (.vBool true) }

/-- Second counterexample submission for C2 (reported total 3). -/
def c2inputB : RawInput :=
  { thought := some (.vStr "second idea")
    thoughtNumber := some (.vNum 3)
    totalThoughts := some (.vNum 1)
    nextThoughtNeeded := some (.vBool true) }

/-- Store state after the first C2 counterexample submission. -/
noncomputable def c2state1 : ServerState :=
  (processThought initialServerState c2inputA).2

/-- Counterexample to C2 as stated: two successive successful submissions to
one store instance whose reported `totalThoughts` drops from 100 to 3 —
the value is not persisted across calls, so it is not non-decreasing over
the session. -/
theorem C2_counterexample_not_monotone_across_session :
    responseTotalThoughts initialServerState c2inputA = some 100 ∧
    responseTotalThoughts c2state1 c2inputB = some 3 ∧ ¬((100 : ℚ) ≤ 3) := by
  have hA : validateThoughtData c2inputA = Except.ok
      { thought := "first idea", thoughtNumber := 2, totalThoughts := 100,
        nextThoughtNeeded := true } := rfl
  have hB : validateThoughtData c2inputB = Except.ok
      { thought := "second idea", thoughtNumber := 3, totalThoughts := 1,
        nextThoughtNeeded := true } := rfl
  have hctx1 : c2state1.promptContext = none := by
    unfold c2state1
    rw [processThought_promptContext]
    rfl
  refine ⟨?_, ?_, by norm_num⟩
  · rw [(processThought_ok initialServerState c2inputA _ hA).2.1,
      enrichThought_totalThoughts,
      show initialServerState.promptContext = none from rfl]
    norm_num
  · rw [(processThought_ok c2state1 c2inputB _ hB).2.1,
      enrichThought_totalThoughts, hctx1]
    norm_num

/-- Witness for C2 at a concrete valid submission on the fresh store. -/
theorem C2_totalThoughts_witness :
    responseTotalThoughts initialServerState c2inputA =
      some ((enrichThought initialServerState
        { thought := "first idea", thoughtNumber := 2, totalThoughts := 100,
          nextThoughtNeeded := true }).totalThoughts) ∧
    (100 : ℚ) ≤ (enrichThought initialServerState
      { thought := "first idea", thoughtNumber := 2, totalThoughts := 100,
        nextThoughtNeeded := true }).totalThoughts := by
  have h := C2_totalThoughts_within_submission initialServerState c2inputA
    { thought := "first idea", thoughtNumber := 2, totalThoughts := 100,
      nextThoughtNeeded := true } rfl
  exact ⟨h.1, h.2.2.1⟩

/-- C7 (amended): the prompt profile is (re)created by every submission whose
raw `thoughtNumber` field equals 1, from that submission's thought text, and
submissions with any other `thoughtNumber` never change the stored profile.
It is therefore not immutable for the session (see the counterexample). -/
theorem C7_profile_rebuilt_only_on_thought_number_one (s : ServerState)
    (input : RawInput) :
    (input.thoughtNumber ≠ some (.vNum 1) →
      handledPromptContext s input = some s.promptContext) ∧
    (∀ t, input.thoughtNumber = some (.vNum 1) →
      input.thought = some (.vStr t) →
      handledPromptContext s input = some (some (analyzePrompt t))) := by
  constructor
  · intro hne
    unfold handledPromptContext handleCallTool
    rw [if_neg hne]
    simp [processThought_promptContext]
  · intro t h1 ht
    unfold handledPromptContext handleCallTool
    rw [if_pos h1, ht]
    simp [processThought_promptContext]

/-- First C7 counterexample submission (thought number 1, low priority
text). -/
def c7inputA : RawInput :=
  { thought := some (.vStr "start the plan")
    thoughtNumber := some (.vNum 1)
    totalThoughts := some (.vNum 2)
    nextThoughtNeeded := some (.vBool true) }

/-- Second C7 counterexample submission (again thought number 1, urgent
text). -/
def c7inputB : RawInput :=
  { thought := some (.vStr "urgent rework")
    thoughtNumber := some (.vNum 1)
    totalThoughts := some (.vNum 2)
    nextThoughtNeeded := some (.vBool true) }

/-- Counterexample to C7 as stated: a later submission (the second one, also
carrying `thoughtNumber` 1) changes the stored profile — its priority flips
from low to high — so the profile is not created exactly once nor immutable
for the session. -/
theorem C7_counterexample_profile_overwritten :
    sessionProfilePriority [c7inputA] = some (some Priority.low) ∧
    sessionProfilePriority [c7inputA, c7inputB] = some (some Priority.high) := by
  have hA : (analyzePrompt "start the plan").priority = Priority.low := by
    decide
  have hB : (analyzePrompt "urgent rework").priority = Priority.high := by
    decide
  have hstep : ∀ s : ServerState, ∀ inp : RawInput, ∀ t : String,
      inp.thoughtNumber = some (.vNum 1) → inp.thought = some (.vStr t) →
      handleCallTool s inp =
        some (processThought
          { s with promptContext := some (analyzePrompt t) } inp) := by
    intro s inp t h1 ht
    unfold handleCallTool
    rw [if_pos h1, ht]
  constructor
  · unfold sessionProfilePriority runSession runSessionFrom
    rw [hstep initialServerState c7inputA "start the plan" rfl rfl]
    simp [runSessionFrom, processThought_promptContext, hA]
  · unfold sessionProfilePriority runSession runSessionFrom
    rw [hstep initialServerState c7inputA "start the plan" rfl rfl]
    simp only []
    unfold runSessionFrom
    rw [hstep _ c7inputB "urgent rework" rfl rfl]
    simp [runSessionFrom, processThought_promptContext, hB]

/-- Witness for C7: a non-first submission leaves the profile untouched and a
first submission installs the analyzed profile. -/
theorem C7_profile_witness :
    handledPromptContext initialServerState c2inputA =
      some initialServerState.promptContext ∧
    handledPromptContext initialServerState c7inputA =
      some (some (analyzePrompt "start the plan")) := by
  constructor
  · exact (C7_profile_rebuilt_only_on_thought_number_one initialServerState
      c2inputA).1 (by simp [c2inputA])
  · exact (C7_profile_rebuilt_only_on_thought_number_one initialServerState
      c7inputA).2 "start the plan" rfl rfl

/-- C8: a successful submission appends exactly one record — the enriched
incoming thought — to the history; every previously appended thought,
including all its computed scores, is left unchanged (the old history is an
unmodified prefix of the new one). -/
theorem C8_history_append_only (s : ServerState) (input : RawInput)
    (v : ThoughtData) (hok : validateThoughtData input = Except.ok v) :
    (processThought s input).2.thoughtHistory =
      s.thoughtHistory ++ [enrichThought s v] ∧
    (processThought s input).2.thoughtHistory.take s.thoughtHistory.length =
      s.thoughtHistory := by
  have h := (processThought_ok s input v hok).1
  refine ⟨h, ?_⟩
  rw [h, List.take_left]

/-- Witness for C8 at a concrete valid submission on the fresh store. -/
theorem C8_history_append_only_witness :
    (processThought initialServerState c2inputA).2.thoughtHistory =
      [] ++ [enrichThought initialServerState
        { thought := "first idea", thoughtNumber := 2, totalThoughts := 100,
          nextThoughtNeeded := true }] := by
  have h := (C8_history_append_only initialServerState c2inputA
    { thought := "first idea", thoughtNumber := 2, totalThoughts := 100,
      nextThoughtNeeded := true } rfl).1
  simpa [initialServerState] using h

/-- Bridge: `jsMin` is the lattice minimum. -/
lemma jsMin_eq (a b : ℚ) : jsMin a b = min a b := by
  unfold jsMin
  rw [min_def]

/-- Bridge: `jsMax` is the lattice maximum. -/
lemma jsMax_eq (a b : ℚ) : jsMax a b = max a b := by
  unfold jsMax
  rw [max_def]
  rcases le_total a b with h | h <;> split_ifs <;> first | rfl | linarith

/-- Bounds for the goal-coverage fold of the alignment scorer. -/
lemma goalAlignment_fold_bounds (tl : String) (goals : List String) :
    ∀ b : ℚ, 0 ≤ b → b ≤ 10 →
      0 ≤ goals.foldl (fun best goal =>
        let gks := goalKeywordsOf goal
        let m := (gks.filter fun kw => jsIncludes tl kw).length
        let pct : ℚ := if gks.length > 0 then (m : ℚ) / (gks.length : ℚ)
          else 0
        jsMax best (pct * 10)) b ∧
      goals.foldl (fun best goal =>
        let gks := goalKeywordsOf goal
        let m := (gks.filter fun kw => jsIncludes tl kw).length
        let pct : ℚ := if gks.length > 0 then (m : ℚ) / (gks.length : ℚ)
          else 0
        jsMax best (pct * 10)) b ≤ 10 := by
  induction goals with
  | nil => intro b hb0 hb10; exact ⟨hb0, hb10⟩
  | cons g gs ih =>
    intro b hb0 hb10
    simp only [List.foldl_cons]
    apply ih
    · rw [jsMax_eq]
      exact le_trans hb0 (le_max_left _ _)
    · rw [jsMax_eq]
      have hpct : (if (goalKeywordsOf g).length > 0 then
          (((goalKeywordsOf g).filter fun kw => jsIncludes tl kw).length : ℚ) /
            ((goalKeywordsOf g).length : ℚ)
          else 0) ≤ 1 := by
        split_ifs with hlen
        · rw [div_le_one (by exact_mod_cast hlen)]
          exact_mod_cast List.length_filter_le _ _
        · norm_num
      exact max_le hb10 (by linarith)

/-- Rounded-score bounds shared by the two C5 components. -/
lemma alignmentRound_bounds (a b : ℚ) (ha0 : 0 ≤ a) (ha10 : a ≤ 10)
    (hb0 : 0 ≤ b) (hb10 : b ≤ 10) :
    0 ≤ jsRound (((5 + a) / 2 + b) / 2) ∧
      jsRound (((5 + a) / 2 + b) / 2) ≤ 10 := by
  unfold jsRound
  constructor
  · have h : (0 : ℤ) ≤ ⌊((5 + a) / 2 + b) / 2 + 1 / 2⌋ :=
      Int.le_floor.mpr (by push_cast; linarith)
    exact_mod_cast h
  · have h : ⌊((5 + a) / 2 + b) / 2 + 1 / 2⌋ < (11 : ℤ) :=
      Int.floor_lt.mpr (by push_cast; linarith)
    have h10 : ⌊((5 + a) / 2 + b) / 2 + 1 / 2⌋ ≤ (10 : ℤ) := by omega
    exact_mod_cast h10

/-- The drift warning is attached exactly when the rounded alignment score is
below 4. -/
lemma driftWarning_iff (thought : String) (meta : PromptMetadata) :
    (analyzeThoughtAlignment thought meta).driftWarning.isSome = true ↔
      calculateAlignmentScore thought meta < 4 := by
  unfold analyzeThoughtAlignment checkForTopicDrift
  by_cases h : calculateAlignmentScore thought meta < 4
  · rw [if_pos h]
    simpa using h
  · rw [if_neg h]
    simpa using h

/-- Concrete alignment score of the C5 counterexample pair. -/
lemma c5_alignment_score :
    calculateAlignmentScore "go up" (analyzePrompt "go up") = 1 := by
  have hkw : (analyzePrompt "go up").keywords = [] := by decide
  have hgoals : (analyzePrompt "go up").goals = ["go up"] := by decide
  have hgks : goalKeywordsOf "go up" = [] := by decide
  unfold calculateAlignmentScore
  rw [hkw, hgoals]
  simp only [List.filter_nil, List.length_nil, List.foldl_cons,
    List.foldl_nil, hgks]
  norm_num [jsMin, jsMax, jsRound]

/-- C5 (amended): the computed alignment score always lies in [0, 10]; the
drift warning is attached to a thought exactly when the rounded alignment
score of `PromptAnalyzer.calculateAlignmentScore` is below 4 — not by the
weighted driftScore formula; that formula lives in
`SemanticAnalyzer.detectTopicDrift`, whose `hasDrift` flag does equal
`driftScore > 0.55` but does not drive the attached warning (see the
counterexample). -/
theorem C5_alignment_bounds_and_drift_criterion :
    (∀ thought meta, 0 ≤ calculateAlignmentScore thought meta ∧
      calculateAlignmentScore thought meta ≤ 10) ∧
    (∀ thought meta,
      (analyzeThoughtAlignment thought meta).driftWarning.isSome = true ↔
        calculateAlignmentScore thought meta < 4) ∧
    (∀ t meta, (detectTopicDrift t meta).hasDrift = true ↔
        (detectTopicDrift t meta).driftScore > 0.55) := by
  refine ⟨?_, ?_, ?_⟩
  · intro thought meta
    unfold calculateAlignmentScore
    dsimp only
    refine alignmentRound_bounds _ _ ?_ ?_ ?_ ?_
    · rw [jsMin_eq]
      exact le_min (by norm_num) (by positivity)
    · rw [jsMin_eq]
      exact min_le_left _ _
    · exact (goalAlignment_fold_bounds (jsToLower thought) meta.goals 0
        le_rfl (by norm_num)).1
    · exact (goalAlignment_fold_bounds (jsToLower thought) meta.goals 0
        le_rfl (by norm_num)).2
  · intro thought meta
    exact driftWarning_iff thought meta
  · intro t meta
    unfold detectTopicDrift
    simp

/-- Counterexample thought for C5. -/
def c5thought : ThoughtData :=
  { thought := "go up", thoughtNumber := 2, totalThoughts := 2,
    nextThoughtNeeded := false }

set_option maxRecDepth 8000 in
/-- Counterexample to C5 as stated: with session prompt "go up" and the
identical thought text "go up", the drift warning IS attached (rounded
alignment score 1 < 4) although the weighted driftScore of
`detectTopicDrift` is 0, far below the claimed 0.55 threshold: the attached
warning is not governed by the driftScore formula. -/
theorem C5_counterexample_warning_without_driftScore :
    (analyzeThoughtAlignment "go up" (analyzePrompt "go up")).driftWarning.isSome
        = true ∧
    (detectTopicDrift c5thought (analyzePrompt "go up")).driftScore = 0 ∧
    ¬((0 : ℚ) > 0.55) := by
  refine ⟨?_, ?_, by norm_num⟩
  · rw [driftWarning_iff, c5_alignment_score]
    norm_num
  · have hg : calculateContextualAspectRelevance "go up"
        (analyzePrompt "go up").goals = 1 := by
      have hgoals : (analyzePrompt "go up").goals = ["go up"] := by decide
      have hinc : jsIncludes (jsToLower "go up") (jsToLower "go up") = true := by
        decide
      rw [hgoals]
      unfold calculateContextualAspectRelevance
      simp only [List.length_cons, List.length_nil, List.map_cons,
        List.map_nil, hinc, if_true]
      norm_num [jsMin, jsMaxN]
    have hk : (analyzePrompt "go up").keywords = [] := by decide
    have hd : (analyzePrompt "go up").domains = [] := by decide
    unfold detectTopicDrift
    simp only [hk, hd]
    rw [show c5thought.thought = "go up" from rfl, hg]
    norm_num [calculateContextualAspectRelevance]

/-! ## Similarity lemmas (SemanticAnalyzer) -/

lemma splitRunsState_ne_nil (p : Char → Bool) (l : List Char) :
    (l.foldr (splitRunsStep p) ([[]], false)).1 ≠ [] := by
  induction l with
  | nil => simp
  | cons c cs ih =>
    rw [List.foldr_cons]
    rcases hS : cs.foldr (splitRunsStep p) ([[]], false) with ⟨gs, flag⟩
    rw [hS] at ih
    by_cases hp : p c
    · by_cases hf : flag <;> simp [splitRunsStep, hp, hf, ih]
    · cases gs with
      | nil => exact absurd rfl ih
      | cons g rest => simp [splitRunsStep, hp]

lemma splitRunsState_head_of_flag (p : Char → Bool) (l : List Char)
    (h : (l.foldr (splitRunsStep p) ([[]], false)).2 = true) :
    (l.foldr (splitRunsStep p) ([[]], false)).1.headD [] = [] := by
  induction l with
  | nil => simp at h
  | cons c cs ih =>
    rcases hS : cs.foldr (splitRunsStep p) ([[]], false) with ⟨gs, flag⟩
    rw [List.foldr_cons, hS] at h ⊢
    rw [hS] at ih
    by_cases hp : p c
    · by_cases hf : flag
      · have hh := ih (by simp [hf])
        simpa [splitRunsStep, hp, hf] using hh
      · simp [splitRunsStep, hp, hf]
    · cases gs with
      | nil => simp [splitRunsStep, hp] at h
      | cons g rest => simp [splitRunsStep, hp] at h

lemma splitRunsState_groups_sepFree (p : Char → Bool) (l : List Char) :
    ∀ g ∈ (l.foldr (splitRunsStep p) ([[]], false)).1, ∀ c ∈ g,
      p c = false := by
  induction l with
  | nil =>
    intro g hg c hc
    simp at hg
    subst hg
    simp at hc
  | cons ch cs ih =>
    rcases hS : cs.foldr (splitRunsStep p) ([[]], false) with ⟨gs, flag⟩
    rw [hS] at ih
    intro g hg c hc
    rw [List.foldr_cons, hS] at hg
    by_cases hp : p ch
    · by_cases hf : flag
      · simp only [splitRunsStep, hp, hf, if_true] at hg
        exact ih g hg c hc
      · simp only [splitRunsStep, hp, hf, if_true, if_false,
          Bool.false_eq_true, List.mem_cons] at hg
        rcases hg with rfl | hg
        · simp at hc
        · exact ih g hg c hc
    · cases gs with
      | nil =>
        simp only [splitRunsStep, hp, Bool.false_eq_true, if_false,
          List.mem_singleton] at hg
        subst hg
        simp only [List.mem_singleton] at hc
        subst hc
        simpa using hp
      | cons g0 rest =>
        simp only [splitRunsStep, hp, Bool.false_eq_true, if_false,
          List.mem_cons] at hg
        rcases hg with rfl | hg
        · rcases List.mem_cons.mp hc with rfl | hc
          · simpa using hp
          · exact ih g0 (List.mem_cons_self _ _) c hc
        · exact ih g (List.mem_cons_of_mem _ hg) c hc

lemma splitRunsState_prepend (p : Char → Bool) (a l : List Char)
    (ha : a ≠ []) (hfree : ∀ c ∈ a, p c = false) :
    (a ++ l).foldr (splitRunsStep p) ([[]], false) =
      ((a ++ (l.foldr (splitRunsStep p) ([[]], false)).1.headD []) ::
        (l.foldr (splitRunsStep p) ([[]], false)).1.tail, false) := by
  induction a with
  | nil => exact absurd rfl ha
  | cons ch a' iha =>
    have hp : p ch = false := hfree ch (List.mem_cons_self _ _)
    rcases a' with _ | ⟨ch2, a''⟩
    · rcases hS : l.foldr (splitRunsStep p) ([[]], false) with ⟨gs, flag⟩
      have hgs : gs ≠ [] := by
        have := splitRunsState_ne_nil p l
        rw [hS] at this
        exact this
      rcases gs with _ | ⟨g0, rest⟩
      · exact absurd rfl hgs
      · simp [splitRunsStep, hS, hp]
    · have iha' := iha (by simp)
        (fun c hc => hfree c (List.mem_cons_of_mem _ hc))
      rw [List.cons_append, List.foldr_cons, iha']
      simp [splitRunsStep, hp]

lemma splitRunsState_sep_cons (p : Char → Bool) (c : Char) (hc : p c = true)
    (l : List Char) :
    ((c :: l).foldr (splitRunsStep p) ([[]], false)).1.headD [] = [] ∧
    ∀ x ∈ (l.foldr (splitRunsStep p) ([[]], false)).1,
      x ∈ ((c :: l).foldr (splitRunsStep p) ([[]], false)).1 := by
  rcases hS : l.foldr (splitRunsStep p) ([[]], false) with ⟨gs, flag⟩
  rw [List.foldr_cons, hS]
  by_cases hf : flag
  · constructor
    · have hh := splitRunsState_head_of_flag p l (by rw [hS]; exact hf)
      rw [hS] at hh
      simpa [splitRunsStep, hc, hf] using hh
    · intro x hx
      simpa [splitRunsStep, hc, hf] using hx
  · constructor
    · simp [splitRunsStep, hc, hf]
    · intro x hx
      simp only [splitRunsStep, hc, hf, if_true, Bool.false_eq_true, if_false]
      exact List.mem_cons_of_mem _ hx

lemma mem_splitRuns_joinSpace (p : Char → Bool) (hsp : p ' ' = true)
    (ts : List String) (tok : String) (htok : tok ∈ ts) (hne : tok ≠ "")
    (hfree : ∀ t ∈ ts, ∀ c ∈ t.data, p c = false) :
    tok.data ∈ ((joinSpaceChars (ts.map String.data)).foldr
      (splitRunsStep p) ([[]], false)).1 := by
  have hd : tok.data ≠ [] := by
    intro hh
    exact hne (String.ext hh)
  induction ts with
  | nil => simp at htok
  | cons t ts' ih =>
    rcases ts' with _ | ⟨t2, ts''⟩
    · simp only [List.mem_singleton] at htok
      subst htok
      rw [show joinSpaceChars ([tok].map String.data) = tok.data from rfl]
      rw [show tok.data = tok.data ++ ([] : List Char) from (List.append_nil _).symm]
      rw [splitRunsState_prepend p tok.data [] hd
        (hfree tok (List.mem_cons_self _ _))]
      simp
    · have hJ : joinSpaceChars ((t :: t2 :: ts'').map String.data) =
          t.data ++ ' ' :: joinSpaceChars ((t2 :: ts'').map String.data) := rfl
      rw [hJ]
      set J := joinSpaceChars ((t2 :: ts'').map String.data) with hJdef
      obtain ⟨hhead, hsub⟩ := splitRunsState_sep_cons p ' ' hsp J
      rcases List.mem_cons.mp htok with rfl | htok'
      · rw [splitRunsState_prepend p tok.data (' ' :: J) hd
          (hfree tok (List.mem_cons_self _ _))]
        rw [show ((' ' :: J).foldr (splitRunsStep p) ([[]], false)).1.headD []
            = [] from hhead]
        rw [List.append_nil]
        exact List.mem_cons_self _ _
      · have hmemJ : tok.data ∈ (J.foldr (splitRunsStep p) ([[]], false)).1 :=
          ih htok' (fun t' ht' c hc => hfree t' (List.mem_cons_of_mem _ ht') c hc)
        have hmemSp := hsub tok.data hmemJ
        rcases hG : ((' ' :: J).foldr (splitRunsStep p) ([[]], false)).1
          with _ | ⟨g0, grest⟩
        · have := splitRunsState_ne_nil p (' ' :: J)
          rw [hG] at this
          exact absurd rfl this
        · have hg0 : g0 = [] := by
            rw [hG] at hhead
            simpa using hhead
          rcases hcase : t.data with _ | ⟨tc, tcs⟩
          · simpa using hmemSp
          · have hfree' : ∀ c ∈ tc :: tcs, p c = false := by
              rw [← hcase]
              exact fun c hc => hfree t (List.mem_cons_self _ _) c hc
            rw [splitRunsState_prepend p (tc :: tcs) (' ' :: J) (by simp)
              hfree']
            rw [hG] at hmemSp ⊢
            rcases List.mem_cons.mp hmemSp with heq | hmem
            · exact absurd (heq.trans hg0) hd
            · exact List.mem_cons_of_mem _ (by simpa using hmem)

lemma token_mem_resplit (tok : String) (ts : List String)
    (htok : tok ∈ ts) (hne : tok ≠ "")
    (hfree : ∀ t ∈ ts, ∀ c ∈ t.data, wsChar c = false) :
    tok ∈ jsSplitWs (joinSpace ts) := by
  unfold jsSplitWs joinSpace splitRuns
  have hmem := mem_splitRuns_joinSpace wsChar (by decide) ts tok htok hne hfree
  refine List.mem_map.mpr ⟨tok.data, ?_, ?_⟩
  · simpa using hmem
  · cases tok; rfl

lemma thoughtTokens_sepFree (text : String) :
    ∀ t ∈ thoughtTokens text, ∀ c ∈ t.data, wsChar c = false := by
  intro t ht c hc
  unfold thoughtTokens at ht
  have ht' : t ∈ jsSplitWs (jsToLower text) := (List.mem_filter.mp ht).1
  unfold jsSplitWs splitRuns at ht'
  obtain ⟨g, hg, hgt⟩ := List.mem_map.mp ht'
  have : c ∈ g := by rw [← hgt] at hc; simpa using hc
  exact splitRunsState_groups_sepFree wsChar _ g hg c this

lemma mem_jsDedupAux {α : Type} [DecidableEq α] (l : List α) (seen : List α)
    (x : α) : x ∈ jsDedupAux seen l ↔ x ∈ l ∧ x ∉ seen := by
  induction l generalizing seen with
  | nil => simp [jsDedupAux]
  | cons y ys ih =>
    unfold jsDedupAux
    by_cases hy : y ∈ seen
    · rw [if_pos hy, ih]
      constructor
      · rintro ⟨hx, hnx⟩
        exact ⟨List.mem_cons_of_mem _ hx, hnx⟩
      · rintro ⟨hx, hnx⟩
        rcases List.mem_cons.mp hx with rfl | hx
        · exact absurd hy hnx
        · exact ⟨hx, hnx⟩
    · rw [if_neg hy]
      constructor
      · intro hx
        rcases List.mem_cons.mp hx with rfl | hx
        · exact ⟨List.mem_cons_self _ _, hy⟩
        · obtain ⟨h1, h2⟩ := (ih _).mp hx
          exact ⟨List.mem_cons_of_mem _ h1,
            fun hc => h2 (List.mem_cons_of_mem _ hc)⟩
      · rintro ⟨hx, hnx⟩
        by_cases hxy : x = y
        · exact hxy ▸ List.mem_cons_self _ _
        · rcases List.mem_cons.mp hx with rfl | hx
          · exact absurd rfl hxy
          · exact List.mem_cons_of_mem _ ((ih _).mpr ⟨hx, fun hc => by
              rcases List.mem_cons.mp hc with rfl | hc
              · exact hxy rfl
              · exact hnx hc⟩)

lemma mem_jsDedup {α : Type} [DecidableEq α] (l : List α) (x : α) :
    x ∈ jsDedup l ↔ x ∈ l := by
  rw [jsDedup, mem_jsDedupAux]
  simp

lemma nodup_jsDedupAux {α : Type} [DecidableEq α] (l : List α)
    (seen : List α) : (jsDedupAux seen l).Nodup := by
  induction l generalizing seen with
  | nil => simp [jsDedupAux]
  | cons y ys ih =>
    unfold jsDedupAux
    by_cases hy : y ∈ seen
    · rw [if_pos hy]
      exact ih _
    · rw [if_neg hy]
      refine List.nodup_cons.mpr ⟨?_, ih _⟩
      intro hc
      exact ((mem_jsDedupAux _ _ _).mp hc).2 (List.mem_cons_self _ _)

lemma nodup_jsDedup {α : Type} [DecidableEq α] (l : List α) :
    (jsDedup l).Nodup := nodup_jsDedupAux l []

lemma jsDedup_ne_nil {α : Type} [DecidableEq α] (l : List α) (h : l ≠ []) :
    jsDedup l ≠ [] := by
  cases l with
  | nil => exact absurd rfl h
  | cons x xs =>
    intro hc
    have : x ∈ jsDedup (x :: xs) := (mem_jsDedup _ _).mpr (List.mem_cons_self _ _)
    rw [hc] at this
    simp at this

lemma length_insertStable {α : Type} (bf : α → α → Prop) [DecidableRel bf]
    (x : α) (l : List α) : (insertStable bf x l).length = l.length + 1 := by
  induction l with
  | nil => rfl
  | cons y ys ih =>
    unfold insertStable
    split_ifs <;> simp [ih]

lemma length_stableSortBy_aux {α : Type} (bf : α → α → Prop)
    [DecidableRel bf] (l acc : List α) :
    (l.foldl (fun acc x => insertStable bf x acc) acc).length =
      acc.length + l.length := by
  induction l generalizing acc with
  | nil => simp
  | cons x xs ih =>
    rw [List.foldl_cons, ih, length_insertStable]
    simp only [List.length_cons]
    omega

lemma length_stableSortBy {α : Type} (bf : α → α → Prop) [DecidableRel bf]
    (l : List α) : (stableSortBy bf l).length = l.length := by
  unfold stableSortBy
  rw [length_stableSortBy_aux]
  simp

lemma getIdfWeight_eq (w : String) : getIdfWeight w = 1 := by
  norm_num [getIdfWeight]

lemma rawWordVec_nonneg (w : String) (k : Fin 300) : 0 ≤ rawWordVec w k := by
  unfold rawWordVec
  refine Finset.sum_nonneg fun i _ => Finset.sum_nonneg fun j _ => ?_
  split_ifs
  · positivity
  · exact le_rfl

lemma sum_bucket_ite (n : ℕ) (q : ℚ) (hn : n < 300) :
    (∑ k : Fin 300, if n = (k : ℕ) then q else 0) = q := by
  have he : ∀ k : Fin 300, (if n = (k : ℕ) then q else 0) =
      (if (⟨n, hn⟩ : Fin 300) = k then q else 0) := by
    intro k
    by_cases h : n = (k : ℕ)
    · rw [if_pos h, if_pos (Fin.ext h)]
    · rw [if_neg h, if_neg fun hk => h (congrArg Fin.val hk)]
  rw [Finset.sum_congr rfl fun k _ => he k, Finset.sum_ite_eq]
  simp

lemma sum_rawWordVec_pos (w : String) (hw : w.data ≠ []) :
    0 < ∑ k : Fin 300, rawWordVec w k := by
  unfold rawWordVec
  rw [Finset.sum_comm]
  refine Finset.sum_pos ?_ ?_
  · intro i _
    rw [Finset.sum_comm]
    refine Finset.sum_pos ?_ (by simp)
    intro j _
    have hb : bucketIdx w.data i j < 300 := by
      unfold bucketIdx
      exact Nat.mod_lt _ (by norm_num)
    rw [sum_bucket_ite _ _ hb]
    positivity
  · exact ⟨0, Finset.mem_range.mpr (List.length_pos.mpr hw)⟩

lemma exists_rawWordVec_pos (w : String) (hw : w.data ≠ []) :
    ∃ k : Fin 300, 0 < rawWordVec w k := by
  by_contra h
  push_neg at h
  exact absurd (sum_rawWordVec_pos w hw)
    (not_lt.mpr (Finset.sum_nonpos fun k _ => h k))

lemma wordVecMag_pos (w : String) (hw : w.data ≠ []) : 0 < wordVecMag w := by
  unfold wordVecMag
  rw [Real.sqrt_pos]
  obtain ⟨k0, hk0⟩ := exists_rawWordVec_pos w hw
  refine Finset.sum_pos' (fun k _ => mul_self_nonneg _)
    ⟨k0, Finset.mem_univ _, ?_⟩
  have hq : (0:ℝ) < (rawWordVec w k0 : ℝ) := by exact_mod_cast hk0
  exact mul_pos hq hq

lemma wordVecFn_nonneg (w : String) (k : Fin 300) : 0 ≤ wordVecFn w k := by
  unfold wordVecFn
  split_ifs with h
  · exact le_rfl
  · refine div_nonneg (by exact_mod_cast rawWordVec_nonneg w k) ?_
    unfold wordVecMag
    exact Real.sqrt_nonneg _

lemma exists_wordVecFn_pos (w : String) (hw : w.data ≠ []) :
    ∃ k : Fin 300, 0 < wordVecFn w k := by
  obtain ⟨k0, hk0⟩ := exists_rawWordVec_pos w hw
  have hmag := wordVecMag_pos w hw
  refine ⟨k0, ?_⟩
  unfold wordVecFn
  rw [if_neg (ne_of_gt hmag)]
  exact div_pos (by exact_mod_cast hk0) hmag

lemma buildPre_nonneg (text : String) (k : Fin 300) : 0 ≤ buildPre text k := by
  unfold buildPre
  dsimp only
  have hsum : 0 ≤ (List.map (fun tok => wordVecFn tok k * getIdfWeight tok)
      (thoughtTokens text)).sum := by
    refine List.sum_nonneg ?_
    intro x hx
    obtain ⟨tok, _, rfl⟩ := List.mem_map.mp hx
    have h1 := wordVecFn_nonneg tok k
    simpa [getIdfWeight_eq] using h1
  split_ifs with h
  · exact div_nonneg hsum (by positivity)
  · exact hsum

lemma exists_buildPre_pos (text : String)
    (h : ∃ tok ∈ thoughtTokens text, tok ≠ "") :
    ∃ k : Fin 300, 0 < buildPre text k := by
  obtain ⟨tok, htok, hne⟩ := h
  have hd : tok.data ≠ [] := fun hh => hne (String.ext hh)
  obtain ⟨k0, hk0⟩ := exists_wordVecFn_pos tok hd
  refine ⟨k0, ?_⟩
  unfold buildPre
  dsimp only
  have hlen : 0 < (thoughtTokens text).length :=
    List.length_pos.mpr (List.ne_nil_of_mem htok)
  rw [if_pos hlen]
  refine div_pos ?_ (by exact_mod_cast hlen)
  have hmem : wordVecFn tok k0 * getIdfWeight tok ∈
      (thoughtTokens text).map fun t => wordVecFn t k0 * getIdfWeight t :=
    List.mem_map_of_mem _ htok
  have hle := List.single_le_sum (fun x hx => ?_) _ hmem
  · refine lt_of_lt_of_le ?_ hle
    simpa [getIdfWeight_eq] using hk0
  · obtain ⟨t, _, rfl⟩ := List.mem_map.mp hx
    simpa [getIdfWeight_eq] using wordVecFn_nonneg t k0

lemma buildMag_pos (text : String)
    (h : ∃ tok ∈ thoughtTokens text, tok ≠ "") : 0 < buildMag text := by
  unfold buildMag
  rw [Real.sqrt_pos]
  obtain ⟨k0, hk0⟩ := exists_buildPre_pos text h
  exact Finset.sum_pos' (fun k _ => mul_self_nonneg _)
    ⟨k0, Finset.mem_univ _, mul_pos hk0 hk0⟩

lemma sumSq_ofFn (f : Fin 300 → ℝ) :
    sumSq (List.ofFn f) = ∑ k : Fin 300, f k * f k := by
  unfold sumSq
  rw [List.map_ofFn, List.sum_ofFn]
  rfl

lemma sumSq_buildVec_pos (text : String)
    (h : ∃ tok ∈ thoughtTokens text, tok ≠ "") :
    0 < sumSq (List.ofFn fun k : Fin 300 => buildThoughtVectorsFn text k) := by
  rw [sumSq_ofFn]
  have hmag := buildMag_pos text h
  obtain ⟨k0, hk0⟩ := exists_buildPre_pos text h
  refine Finset.sum_pos' (fun k _ => mul_self_nonneg _)
    ⟨k0, Finset.mem_univ _, ?_⟩
  unfold buildThoughtVectorsFn
  rw [if_neg (ne_of_gt hmag)]
  exact mul_pos (div_pos hk0 hmag) (div_pos hk0 hmag)

lemma zipWith_mul_self (v : List ℝ) :
    List.zipWith (fun a b => a * b) v v = v.map fun x => x * x := by
  induction v with
  | nil => rfl
  | cons x xs ih => simp [ih]

lemma cosineSimilarity_self (v : List ℝ) (h : 0 < sumSq v) :
    cosineSimilarity v v = 1 := by
  unfold cosineSimilarity
  rw [if_neg (by simp)]
  dsimp only
  have hs : Real.sqrt (sumSq v) ≠ 0 := ne_of_gt (Real.sqrt_pos.mpr h)
  rw [if_neg (by push_neg; exact ⟨hs, hs⟩)]
  rw [zipWith_mul_self]
  rw [show (v.map fun x => x * x).sum = sumSq v from rfl]
  rw [Real.mul_self_sqrt h.le]
  exact div_self (ne_of_gt h)

lemma jaccardSimilarity_self (s : Finset String) (hs : s.Nonempty) :
    jaccardSimilarity s s = 1 := by
  unfold jaccardSimilarity
  rw [Finset.union_self, Finset.inter_self]
  have hc : s.card ≠ 0 := Finset.card_ne_zero.mpr hs
  rw [if_neg hc]
  exact div_self (by exact_mod_cast hc)

lemma saExtractKeywords_ne_nil (text : String)
    (h : thoughtTokens text ≠ []) : saExtractKeywords text ≠ [] := by
  unfold saExtractKeywords
  dsimp only
  rw [if_neg (by simpa [List.length_eq_zero] using h)]
  refine List.ne_nil_of_length_pos ?_
  rw [List.length_map, List.length_take, length_stableSortBy, List.length_map]
  have hpos : 0 < (jsDedup (thoughtTokens text)).length :=
    List.length_pos.mpr (jsDedup_ne_nil _ h)
  exact lt_min (by norm_num) hpos

lemma idf_pair_same (d : List String) (t : String) :
    idfOf [d, d] t = Real.log (2 / (1 + ((if t ∈ d then 2 else 0 : ℕ) : ℝ))) := by
  unfold idfOf
  by_cases hm : t ∈ d <;> simp [List.filter, hm]

lemma calculateTfidfSimilarity_self (text : String)
    (h : ∃ tok ∈ thoughtTokens text, tok ≠ "") :
    calculateTfidfSimilarity text text = 1 := by
  unfold calculateTfidfSimilarity
  dsimp only
  have hpair : ∀ t : String,
      tfidfOf [jsSplitWs (joinSpace (thoughtTokens text)),
        jsSplitWs (joinSpace (thoughtTokens text))] t 1 =
      tfidfOf [jsSplitWs (joinSpace (thoughtTokens text)),
        jsSplitWs (joinSpace (thoughtTokens text))] t 0 := by
    intro t
    simp [tfidfOf]
  simp only [hpair]
  obtain ⟨tok, htok, hne⟩ := h
  have htokd : tok ∈ jsSplitWs (joinSpace (thoughtTokens text)) :=
    token_mem_resplit tok (thoughtTokens text) htok hne
      (thoughtTokens_sepFree text)
  have htokterms : tok ∈ jsDedup (thoughtTokens text ++ thoughtTokens text) :=
    (mem_jsDedup _ _).mpr (List.mem_append_left _ htok)
  have hf : tfidfOf [jsSplitWs (joinSpace (thoughtTokens text)),
      jsSplitWs (joinSpace (thoughtTokens text))] tok 0 ≠ 0 := by
    simp only [tfidfOf, List.get?]
    refine mul_ne_zero ?_ ?_
    · have hcount : 0 < (jsSplitWs (joinSpace (thoughtTokens text))).count tok :=
        List.count_pos_iff.mpr htokd
      have hlen : 0 < (jsSplitWs (joinSpace (thoughtTokens text))).length :=
        List.length_pos.mpr (List.ne_nil_of_mem htokd)
      have htf : (0:ℚ) < tfOf (jsSplitWs (joinSpace (thoughtTokens text))) tok :=
        div_pos (by exact_mod_cast hcount) (by exact_mod_cast hlen)
      exact_mod_cast ne_of_gt htf
    · rw [idf_pair_same _ tok, if_pos htokd]
      refine ne_of_lt (Real.log_neg (by norm_num) (by norm_num))
  have hSpos : 0 < ((jsDedup (thoughtTokens text ++ thoughtTokens text)).map
      fun t => tfidfOf [jsSplitWs (joinSpace (thoughtTokens text)),
        jsSplitWs (joinSpace (thoughtTokens text))] t 0 *
        tfidfOf [jsSplitWs (joinSpace (thoughtTokens text)),
        jsSplitWs (joinSpace (thoughtTokens text))] t 0).sum := by
    have hmem : tfidfOf [jsSplitWs (joinSpace (thoughtTokens text)),
        jsSplitWs (joinSpace (thoughtTokens text))] tok 0 *
        tfidfOf [jsSplitWs (joinSpace (thoughtTokens text)),
        jsSplitWs (joinSpace (thoughtTokens text))] tok 0 ∈
        (jsDedup (thoughtTokens text ++ thoughtTokens text)).map
        fun t => tfidfOf [jsSplitWs (joinSpace (thoughtTokens text)),
          jsSplitWs (joinSpace (thoughtTokens text))] t 0 *
          tfidfOf [jsSplitWs (joinSpace (thoughtTokens text)),
          jsSplitWs (joinSpace (thoughtTokens text))] t 0 :=
      List.mem_map_of_mem _ htokterms
    have hle := List.single_le_sum (fun x hx => ?_) _ hmem
    · exact lt_of_lt_of_le (mul_self_pos.mpr hf) hle
    · obtain ⟨t, _, rfl⟩ := List.mem_map.mp hx
      exact mul_self_nonneg _
  have hsq : Real.sqrt ((jsDedup (thoughtTokens text ++ thoughtTokens text)).map
      fun t => tfidfOf [jsSplitWs (joinSpace (thoughtTokens text)),
        jsSplitWs (joinSpace (thoughtTokens text))] t 0 *
        tfidfOf [jsSplitWs (joinSpace (thoughtTokens text)),
        jsSplitWs (joinSpace (thoughtTokens text))] t 0).sum ≠ 0 :=
    ne_of_gt (Real.sqrt_pos.mpr hSpos)
  rw [if_neg (by push_neg; exact ⟨hsq, hsq⟩)]
  rw [Real.mul_self_sqrt hSpos.le]
  exact div_self (ne_of_gt hSpos)

lemma toFinset_ne_nil_nonempty {α : Type} [DecidableEq α] (l : List α)
    (h : l ≠ []) : l.toFinset.Nonempty := by
  cases l with
  | nil => exact absurd rfl h
  | cons x xs => exact ⟨x, by simp⟩

lemma analyzeSemanticSimilarity_self (t : ThoughtData)
    (hv : t.vector = none)
    (h : ∃ tok ∈ thoughtTokens t.thought, tok ≠ "") :
    analyzeSemanticSimilarity t t = 1 := by
  unfold analyzeSemanticSimilarity
  dsimp only
  rw [hv]
  simp only [Option.getD_none]
  rw [show buildThoughtVectors t =
      List.ofFn fun k : Fin 300 => buildThoughtVectorsFn t.thought k from rfl]
  rw [cosineSimilarity_self _ (sumSq_buildVec_pos t.thought h)]
  obtain ⟨tok, htok, -⟩ := id h
  rw [jaccardSimilarity_self _ (toFinset_ne_nil_nonempty _
    (saExtractKeywords_ne_nil t.thought (List.ne_nil_of_mem htok)))]
  rw [calculateTfidfSimilarity_self t.thought h]
  norm_num

lemma zipWith_mul_comm (v1 v2 : List ℝ) :
    List.zipWith (fun a b => a * b) v1 v2 =
      List.zipWith (fun a b => a * b) v2 v1 := by
  induction v1 generalizing v2 with
  | nil => cases v2 <;> rfl
  | cons x xs ih =>
    cases v2 with
    | nil => rfl
    | cons y ys => simp [ih, mul_comm]

lemma cosineSimilarity_comm (v1 v2 : List ℝ) :
    cosineSimilarity v1 v2 = cosineSimilarity v2 v1 := by
  unfold cosineSimilarity
  by_cases hlen : v1.length = v2.length
  · rw [if_neg (show ¬v1.length ≠ v2.length by simpa using hlen),
      if_neg (show ¬v2.length ≠ v1.length by simpa using hlen.symm)]
    dsimp only
    rw [zipWith_mul_comm]
    by_cases hm : Real.sqrt (sumSq v1) = 0 ∨ Real.sqrt (sumSq v2) = 0
    · rw [if_pos hm, if_pos (Or.symm hm)]
    · rw [if_neg hm, if_neg fun hc => hm (Or.symm hc)]
      rw [mul_comm (Real.sqrt (sumSq v1)) (Real.sqrt (sumSq v2))]
  · rw [if_pos (show v1.length ≠ v2.length from hlen),
      if_pos (show v2.length ≠ v1.length from fun hc => hlen hc.symm)]

lemma jaccardSimilarity_comm (s1 s2 : Finset String) :
    jaccardSimilarity s1 s2 = jaccardSimilarity s2 s1 := by
  unfold jaccardSimilarity
  rw [Finset.union_comm, Finset.inter_comm]

lemma idfOf_pair_comm (d1 d2 : List String) (t : String) :
    idfOf [d1, d2] t = idfOf [d2, d1] t := by
  unfold idfOf
  by_cases h1 : t ∈ d1 <;> by_cases h2 : t ∈ d2 <;>
    simp [List.filter, h1, h2]

lemma tfidfOf_pair_swap01 (d1 d2 : List String) (t : String) :
    tfidfOf [d1, d2] t 0 = tfidfOf [d2, d1] t 1 := by
  simp only [tfidfOf, List.get?]
  rw [idfOf_pair_comm]

lemma tfidfOf_pair_swap10 (d1 d2 : List String) (t : String) :
    tfidfOf [d1, d2] t 1 = tfidfOf [d2, d1] t 0 := by
  simp only [tfidfOf, List.get?]
  rw [idfOf_pair_comm]

lemma list_sum_toFinset_map {α : Type} [DecidableEq α] (l : List α)
    (hl : l.Nodup) (g : α → ℝ) : (l.map g).sum = ∑ x ∈ l.toFinset, g x := by
  induction l with
  | nil => simp
  | cons x xs ih =>
    rw [List.map_cons, List.sum_cons, List.toFinset_cons,
      Finset.sum_insert (by simpa using (List.nodup_cons.mp hl).1),
      ih (List.nodup_cons.mp hl).2]

lemma sum_map_jsDedup_append_comm {α : Type} [DecidableEq α]
    (A B : List α) (g : α → ℝ) :
    ((jsDedup (A ++ B)).map g).sum = ((jsDedup (B ++ A)).map g).sum := by
  rw [list_sum_toFinset_map _ (nodup_jsDedup _) g,
    list_sum_toFinset_map _ (nodup_jsDedup _) g]
  refine Finset.sum_congr ?_ fun _ _ => rfl
  ext x
  simp [List.mem_toFinset, mem_jsDedup, List.mem_append, or_comm]

lemma calculateTfidfSimilarity_comm (x y : String) :
    calculateTfidfSimilarity x y = calculateTfidfSimilarity y x := by
  unfold calculateTfidfSimilarity
  dsimp only
  have e1 : ∀ t : String,
      tfidfOf [jsSplitWs (joinSpace (thoughtTokens y)),
        jsSplitWs (joinSpace (thoughtTokens x))] t 0 *
      tfidfOf [jsSplitWs (joinSpace (thoughtTokens y)),
        jsSplitWs (joinSpace (thoughtTokens x))] t 1 =
      tfidfOf [jsSplitWs (joinSpace (thoughtTokens x)),
        jsSplitWs (joinSpace (thoughtTokens y))] t 0 *
      tfidfOf [jsSplitWs (joinSpace (thoughtTokens x)),
        jsSplitWs (joinSpace (thoughtTokens y))] t 1 := by
    intro t
    rw [tfidfOf_pair_swap01 (jsSplitWs (joinSpace (thoughtTokens y)))
      (jsSplitWs (joinSpace (thoughtTokens x))) t]
    rw [tfidfOf_pair_swap10 (jsSplitWs (joinSpace (thoughtTokens y)))
      (jsSplitWs (joinSpace (thoughtTokens x))) t]
    ring
  have e2 : ∀ t : String,
      tfidfOf [jsSplitWs (joinSpace (thoughtTokens y)),
        jsSplitWs (joinSpace (thoughtTokens x))] t 0 *
      tfidfOf [jsSplitWs (joinSpace (thoughtTokens y)),
        jsSplitWs (joinSpace (thoughtTokens x))] t 0 =
      tfidfOf [jsSplitWs (joinSpace (thoughtTokens x)),
        jsSplitWs (joinSpace (thoughtTokens y))] t 1 *
      tfidfOf [jsSplitWs (joinSpace (thoughtTokens x)),
        jsSplitWs (joinSpace (thoughtTokens y))] t 1 := by
    intro t
    rw [tfidfOf_pair_swap01 (jsSplitWs (joinSpace (thoughtTokens y)))
      (jsSplitWs (joinSpace (thoughtTokens x))) t]
  have e3 : ∀ t : String,
      tfidfOf [jsSplitWs (joinSpace (thoughtTokens y)),
        jsSplitWs (joinSpace (thoughtTokens x))] t 1 *
      tfidfOf [jsSplitWs (joinSpace (thoughtTokens y)),
        jsSplitWs (joinSpace (thoughtTokens x))] t 1 =
      tfidfOf [jsSplitWs (joinSpace (thoughtTokens x)),
        jsSplitWs (joinSpace (thoughtTokens y))] t 0 *
      tfidfOf [jsSplitWs (joinSpace (thoughtTokens x)),
        jsSplitWs (joinSpace (thoughtTokens y))] t 0 := by
    intro t
    rw [tfidfOf_pair_swap10 (jsSplitWs (joinSpace (thoughtTokens y)))
      (jsSplitWs (joinSpace (thoughtTokens x))) t]
  simp only [e1, e2, e3]
  rw [sum_map_jsDedup_append_comm (thoughtTokens y) (thoughtTokens x)]
  rw [sum_map_jsDedup_append_comm (thoughtTokens y) (thoughtTokens x)]
  rw [sum_map_jsDedup_append_comm (thoughtTokens y) (thoughtTokens x)]
  by_cases hm : Real.sqrt (((jsDedup (thoughtTokens x ++ thoughtTokens y)).map
      fun t => tfidfOf [jsSplitWs (joinSpace (thoughtTokens x)),
        jsSplitWs (joinSpace (thoughtTokens y))] t 0 *
        tfidfOf [jsSplitWs (joinSpace (thoughtTokens x)),
        jsSplitWs (joinSpace (thoughtTokens y))] t 0).sum) = 0 ∨
      Real.sqrt (((jsDedup (thoughtTokens x ++ thoughtTokens y)).map
      fun t => tfidfOf [jsSplitWs (joinSpace (thoughtTokens x)),
        jsSplitWs (joinSpace (thoughtTokens y))] t 1 *
        tfidfOf [jsSplitWs (joinSpace (thoughtTokens x)),
        jsSplitWs (joinSpace (thoughtTokens y))] t 1).sum) = 0
  · rw [if_pos hm, if_pos (Or.symm hm)]
  · rw [if_neg hm, if_neg fun hc => hm (Or.symm hc)]
    ring_nf

lemma analyzeSemanticSimilarity_comm (t1 t2 : ThoughtData) :
    analyzeSemanticSimilarity t1 t2 = analyzeSemanticSimilarity t2 t1 := by
  unfold analyzeSemanticSimilarity
  dsimp only
  rw [cosineSimilarity_comm, jaccardSimilarity_comm,
    calculateTfidfSimilarity_comm]

lemma cosineSimilarity_zero_left (v1 v2 : List ℝ) (h : sumSq v1 = 0) :
    cosineSimilarity v1 v2 = 0 := by
  unfold cosineSimilarity
  dsimp only
  split_ifs with h1 h2
  · rfl
  · rfl
  · exact absurd (Or.inl (by rw [h, Real.sqrt_zero])) h2

lemma sumSq_buildVec_nil (text : String) (h : thoughtTokens text = []) :
    sumSq (List.ofFn fun k : Fin 300 => buildThoughtVectorsFn text k) = 0 := by
  rw [sumSq_ofFn]
  refine Finset.sum_eq_zero fun k _ => ?_
  have hpre : buildPre text k = 0 := by
    unfold buildPre
    dsimp only
    rw [h]
    simp
  unfold buildThoughtVectorsFn
  split_ifs with hmag
  · simp
  · rw [hpre]
    simp

lemma saExtractKeywords_nil (text : String) (h : thoughtTokens text = []) :
    saExtractKeywords text = [] := by
  unfold saExtractKeywords
  dsimp only
  rw [if_pos (by rw [h]; rfl)]

lemma calculateTfidfSimilarity_nil (text1 text2 : String)
    (h1 : thoughtTokens text1 = []) (h2 : thoughtTokens text2 = []) :
    calculateTfidfSimilarity text1 text2 = 0 := by
  unfold calculateTfidfSimilarity
  dsimp only
  rw [h1, h2]
  simp [jsDedup, jsDedupAux]

def c4a : ThoughtData :=
  { thought := "check the first option", thoughtNumber := 1,
    totalThoughts := 2, nextThoughtNeeded := true }

def c4b : ThoughtData :=
  { thought := "review results", thoughtNumber := 2, totalThoughts := 2,
    nextThoughtNeeded := false }

def c4w : ThoughtData :=
  { thought := "hello world", thoughtNumber := 1, totalThoughts := 1,
    nextThoughtNeeded := false }

def c4bad : ThoughtData :=
  { thought := "the", thoughtNumber := 1, totalThoughts := 1,
    nextThoughtNeeded := false }

/-- C4: the weighted thought similarity is symmetric in its two arguments
for all thoughts; and a thought with no stored vector whose text yields at
least one nonempty token has self-similarity exactly 1 (cosine, keyword
Jaccard and TF-IDF cosine all equal 1 on identical inputs, and the weights
0.5 + 0.2 + 0.3 sum to 1). -/
theorem C4_similarity_symmetric_and_self (a b t : ThoughtData)
    (hv : t.vector = none)
    (h : ∃ tok ∈ thoughtTokens t.thought, tok ≠ "") :
    analyzeSemanticSimilarity a b = analyzeSemanticSimilarity b a ∧
    analyzeSemanticSimilarity t t = 1 :=
  ⟨analyzeSemanticSimilarity_comm a b, analyzeSemanticSimilarity_self t hv h⟩

/-- Witness for C4 at concrete thoughts: the hypotheses hold for the thought
text "hello world". -/
theorem C4_similarity_witness :
    c4w.vector = none ∧
    (∃ tok ∈ thoughtTokens c4w.thought, tok ≠ "") ∧
    (analyzeSemanticSimilarity c4a c4b = analyzeSemanticSimilarity c4b c4a ∧
     analyzeSemanticSimilarity c4w c4w = 1) :=
  ⟨rfl, by decide, C4_similarity_symmetric_and_self c4a c4b c4w rfl (by decide)⟩

/-- Counterexample to C4 as stated: self-similarity is NOT always 1.  For
the thought text "the" every token is removed as a stop word, so the built
vector is zero, the keyword set is empty and the TF-IDF corpus is empty;
all three components are 0 and the similarity of the thought with itself is
0, not 1. -/
theorem C4_counterexample_self_similarity_not_one :
    analyzeSemanticSimilarity c4bad c4bad = 0 ∧ (0 : ℝ) ≠ 1 := by
  have htok : thoughtTokens c4bad.thought = [] := by decide
  refine ⟨?_, by norm_num⟩
  unfold analyzeSemanticSimilarity
  dsimp only
  rw [show c4bad.vector = none from rfl]
  simp only [Option.getD_none]
  rw [show buildThoughtVectors c4bad = List.ofFn
    fun k : Fin 300 => buildThoughtVectorsFn c4bad.thought k from rfl]
  rw [cosineSimilarity_zero_left _ _ (sumSq_buildVec_nil _ htok)]
  rw [saExtractKeywords_nil _ htok]
  rw [calculateTfidfSimilarity_nil _ _ htok htok]
  norm_num [jaccardSimilarity]

def c3rev : ThoughtData :=
  { thought := "revised claim", thoughtNumber := 3, totalThoughts := 3,
    nextThoughtNeeded := false, isRevision := some true }

def c3exist : ThoughtData :=
  { thought := "base claim", thoughtNumber := 1, totalThoughts := 3,
    nextThoughtNeeded := true }

/-- C3: revisions never participate in contradiction detection.  A new
thought flagged as a revision produces the empty report (no contradictions,
no details), and for any new thought every reported detail targets a
non-revision existing thought: its thought number is taken from an element
of the history whose `isRevision` flag is not truthy. -/
theorem C3_revisions_exempt (newThought : ThoughtData)
    (existing : List ThoughtData)
    (hrev : truthyB newThought.isRevision = true) :
    ((checkContradictions newThought existing).details = [] ∧
     (checkContradictions newThought existing).hasContradictions = false) ∧
    ∀ (n : ThoughtData) (d : ContradictionDetail),
      d ∈ (checkContradictions n existing).details →
      ∃ t ∈ existing, truthyB t.isRevision = false ∧
        t.thoughtNumber = d.thoughtNumber := by
  constructor
  · unfold checkContradictions
    rw [if_pos hrev]
    exact ⟨rfl, rfl⟩
  · intro n d hd
    unfold checkContradictions at hd
    by_cases hn : truthyB n.isRevision = true
    · rw [if_pos hn] at hd
      simp at hd
    · rw [if_neg hn] at hd
      dsimp only at hd
      obtain ⟨t, ht, hft⟩ := List.mem_filterMap.mp hd
      by_cases hP : truthyB t.isRevision = true ∨
          t.thoughtNumber = n.thoughtNumber
      · rw [if_pos hP] at hft
        exact absurd hft (by simp)
      · rw [if_neg hP] at hft
        push_neg at hP
        obtain ⟨e, _, hed⟩ := Option.map_eq_some'.mp hft
        refine ⟨t, ht, Bool.eq_false_iff.mpr hP.1, ?_⟩
        rw [← hed]

/-- Witness for C3: a revision thought checked against a one-thought
history. -/
theorem C3_revisions_witness :
    ((checkContradictions c3rev [c3exist]).details = [] ∧
     (checkContradictions c3rev [c3exist]).hasContradictions = false) ∧
    ∀ (n : ThoughtData) (d : ContradictionDetail),
      d ∈ (checkContradictions n [c3exist]).details →
      ∃ t ∈ [c3exist], truthyB t.isRevision = false ∧
        t.thoughtNumber = d.thoughtNumber :=
  C3_revisions_exempt c3rev [c3exist] (by decide)


/-! ## Clustering lemmas (SemanticAnalyzer.clusterThoughtsByTopic) -/


lemma recordSet_fresh {α : Type} (l : List (String × α)) (k : String)
    (v : α) (h : ∀ p ∈ l, p.1 ≠ k) : recordSet l k v = l ++ [(k, v)] := by
  induction l with
  | nil => rfl
  | cons p rest ih =>
    rcases p with ⟨q, w⟩
    unfold recordSet
    rw [if_neg (h (q, w) (List.mem_cons_self _ _))]
    rw [ih fun r hr => h r (List.mem_cons_of_mem _ hr)]
    rfl

lemma mem_insertStable {α : Type} (bf : α → α → Prop) [DecidableRel bf]
    (x y : α) (l : List α) :
    y ∈ insertStable bf x l ↔ y = x ∨ y ∈ l := by
  induction l with
  | nil => simp [insertStable]
  | cons z zs ih =>
    unfold insertStable
    split_ifs
    · simp only [List.mem_cons]
    · simp only [List.mem_cons, ih]
      tauto

lemma mem_stableSortBy_aux {α : Type} (bf : α → α → Prop) [DecidableRel bf]
    (l acc : List α) (y : α) :
    y ∈ l.foldl (fun acc x => insertStable bf x acc) acc ↔
      y ∈ acc ∨ y ∈ l := by
  induction l generalizing acc with
  | nil => simp
  | cons x xs ih =>
    rw [List.foldl_cons, ih, mem_insertStable]
    simp only [List.mem_cons]
    tauto

lemma mem_stableSortBy {α : Type} (bf : α → α → Prop) [DecidableRel bf]
    (l : List α) (y : α) : y ∈ stableSortBy bf l ↔ y ∈ l := by
  unfold stableSortBy
  rw [mem_stableSortBy_aux]
  simp

lemma saExtractKeywords_subset (text : String) :
    ∀ w ∈ saExtractKeywords text, w ∈ thoughtTokens text := by
  intro w hw
  unfold saExtractKeywords at hw
  dsimp only at hw
  split_ifs at hw with h
  · simp at hw
  · obtain ⟨⟨u, sc⟩, hmem, heq⟩ := List.mem_map.mp hw
    have h1 := List.mem_of_mem_take hmem
    rw [mem_stableSortBy] at h1
    obtain ⟨term, hterm, hpair⟩ := List.mem_map.mp h1
    have : u = term := by
      have := congrArg Prod.fst hpair
      simpa using this.symm
    subst this
    subst heq
    exact (mem_jsDedup _ _).mp hterm

lemma filter_eq_singleton_of {α : Type} (q : α → Bool) (l : List α) (a : α)
    (ha : a ∈ l) (hq : q a = true) (huniq : ∀ b ∈ l, q b = true → b = a)
    (hnd : l.Nodup) : l.filter q = [a] := by
  induction l with
  | nil => simp at ha
  | cons x xs ih =>
    obtain ⟨hnx, hnxs⟩ := List.nodup_cons.mp hnd
    by_cases hxa : x = a
    · subst hxa
      rw [List.filter_cons_of_pos hq]
      have hnil : List.filter q xs = [] := by
        rw [List.filter_eq_nil_iff]
        intro b hb hqb
        exact absurd ((huniq b (List.mem_cons_of_mem _ hb) hqb) ▸ hb) hnx
      rw [hnil]
    · have hax : a ∈ xs := by
        rcases List.mem_cons.mp ha with rfl | hax
        · exact absurd rfl hxa
        · exact hax
      have hqx : q x = false := by
        rcases hqx : q x with _ | _
        · rfl
        · exact absurd (huniq x (List.mem_cons_self _ _) hqx) hxa
      rw [List.filter_cons_of_neg (by simp [hqx])]
      exact ih hax (fun b hb hqb => huniq b (List.mem_cons_of_mem _ hb) hqb)
        hnxs

open scoped Classical in
/-- The cluster gathered by one iteration of `clusterThoughtsByTopic` for
seed index `i` (the `cluster` local of `clusterStep`). -/
noncomputable def clusterOf (thoughts : List ThoughtData)
    (st : ClusterState) (i : ℕ) : List ThoughtData :=
  (thoughts.enum.filter fun p =>
    p.2.thoughtNumber ∉ st.processed ∧
      simMatrixEntry thoughts i p.1 > 0.6).map Prod.snd

open scoped Classical in
/-- The topic name chosen by one iteration of `clusterThoughtsByTopic` for
seed index `i` (the `topicName` local of `clusterStep`). -/
noncomputable def nameOf (thoughts : List ThoughtData) (st : ClusterState)
    (i : ℕ) : String :=
  let topicKeywords := extractTopicKeywords (clusterOf thoughts st i)
  if topicKeywords.length > 0 then joinSep "_" (topicKeywords.take 2)
  else "topic_" ++ toString (st.clusterCount + 1)

lemma clusterStep_eq_processed (T : List ThoughtData) (st : ClusterState)
    (i : ℕ) (h : (T.getD i default).thoughtNumber ∈ st.processed) :
    clusterStep T st i = st := by
  unfold clusterStep
  dsimp only
  rw [if_pos h]

lemma clusterStep_eq_not_processed (T : List ThoughtData) (st : ClusterState)
    (i : ℕ) (h : (T.getD i default).thoughtNumber ∉ st.processed)
    (hc : clusterOf T st i ≠ []) :
    clusterStep T st i =
      { clusters := recordSet st.clusters (nameOf T st i) (clusterOf T st i),
        processed := st.processed ++
          (clusterOf T st i).map fun u => u.thoughtNumber,
        clusterCount := st.clusterCount + 1,
        namesGenerated := st.namesGenerated ++ [nameOf T st i] } := by
  have hlen : (clusterOf T st i).length > 0 := List.length_pos.mpr hc
  unfold clusterOf at hlen
  unfold clusterStep nameOf clusterOf
  dsimp only
  rw [if_neg h]
  rw [if_pos hlen]

lemma mem_clusterOf (T : List ThoughtData) (st : ClusterState) (i : ℕ)
    (t : ThoughtData) :
    t ∈ clusterOf T st i ↔ ∃ j, T.get? j = some t ∧
      t.thoughtNumber ∉ st.processed ∧ simMatrixEntry T i j > 0.6 := by
  unfold clusterOf
  rw [List.mem_map]
  constructor
  · rintro ⟨⟨j, u⟩, hmem, rfl⟩
    obtain ⟨henum, hcond⟩ := List.mem_filter.mp hmem
    rw [List.mem_enum_iff_get?] at henum
    simp only [decide_eq_true_eq] at hcond
    exact ⟨j, henum, hcond.1, hcond.2⟩
  · rintro ⟨j, hget, hproc, hsim⟩
    refine ⟨(j, t), List.mem_filter.mpr ⟨?_, ?_⟩, rfl⟩
    · exact List.mem_enum_iff_get?.mpr hget
    · simp only [decide_eq_true_eq]
      exact ⟨hproc, hsim⟩

lemma mem_clusterOf_mem (T : List ThoughtData) (st : ClusterState) (i : ℕ)
    (t : ThoughtData) (h : t ∈ clusterOf T st i) :
    t ∈ T ∧ t.thoughtNumber ∉ st.processed := by
  obtain ⟨j, hget, hproc, _⟩ := (mem_clusterOf T st i t).mp h
  exact ⟨List.get?_mem hget, hproc⟩

lemma seed_mem_clusterOf (T : List ThoughtData) (st : ClusterState) (i : ℕ)
    (hi : i < T.length)
    (h : (T.getD i default).thoughtNumber ∉ st.processed) :
    T.getD i default ∈ clusterOf T st i := by
  rw [mem_clusterOf]
  refine ⟨i, ?_, h, ?_⟩
  · rw [List.getD_eq_getElem T default hi, List.get?_eq_getElem?]
    exact List.getElem?_eq_getElem hi
  · unfold simMatrixEntry
    rw [if_pos rfl]
    norm_num

lemma clusterOf_ne_nil (T : List ThoughtData) (st : ClusterState) (i : ℕ)
    (hi : i < T.length)
    (h : (T.getD i default).thoughtNumber ∉ st.processed) :
    clusterOf T st i ≠ [] :=
  List.ne_nil_of_mem (seed_mem_clusterOf T st i hi h)

lemma simMatrixEntry_comm (T : List ThoughtData) (i j : ℕ) :
    simMatrixEntry T i j = simMatrixEntry T j i := by
  unfold simMatrixEntry
  by_cases h : i = j
  · rw [if_pos h, if_pos h.symm]
  · rw [if_neg h, if_neg (Ne.symm h)]
    exact analyzeSemanticSimilarity_comm _ _

lemma clusterOf_singleton (T : List ThoughtData) (st : ClusterState) (i : ℕ)
    (hi : i < T.length)
    (hp : (T.getD i default).thoughtNumber ∉ st.processed)
    (hsml : ∀ j, j < T.length → j ≠ i → ¬(simMatrixEntry T i j > 0.6)) :
    clusterOf T st i = [T.getD i default] := by
  unfold clusterOf
  rw [filter_eq_singleton_of _ _ (i, T.getD i default) ?_ ?_ ?_ ?_]
  · rfl
  · rw [List.mem_enum_iff_get?]
    dsimp only
    rw [List.getD_eq_getElem T default hi, List.get?_eq_getElem?]
    exact List.getElem?_eq_getElem hi
  · simp only [decide_eq_true_eq]
    refine ⟨hp, ?_⟩
    unfold simMatrixEntry
    rw [if_pos rfl]
    norm_num
  · rintro ⟨j, u⟩ hmem hq
    rw [List.mem_enum_iff_get?] at hmem
    simp only [decide_eq_true_eq] at hq
    have hjlen : j < T.length := by
      by_contra hc
      dsimp only at hmem
      rw [List.get?_eq_none.mpr (le_of_not_lt hc)] at hmem
      exact Option.noConfusion hmem
    have hji : j = i := by
      by_contra hc
      exact hsml j hjlen hc hq.2
    subst hji
    have : u = T.getD j default := by
      dsimp only at hmem
      rw [List.getD_eq_getElem T default hjlen]
      rw [List.get?_eq_getElem?, List.getElem?_eq_getElem hjlen] at hmem
      exact (Option.some_inj.mp hmem).symm
    rw [this]
  · refine List.Nodup.of_map Prod.fst ?_
    rw [List.enum_map_fst]
    exact List.nodup_range _

lemma clusterStep_eq_empty (T : List ThoughtData) (st : ClusterState)
    (i : ℕ) (h : (T.getD i default).thoughtNumber ∉ st.processed)
    (hc : clusterOf T st i = []) : clusterStep T st i = st := by
  have hlen : ¬((clusterOf T st i).length > 0) := by
    rw [hc]
    simp
  unfold clusterOf at hlen
  unfold clusterStep
  dsimp only
  rw [if_neg h, if_neg hlen]

lemma clusterStep_names (T : List ThoughtData) (st : ClusterState) (i : ℕ) :
    (clusterStep T st i).namesGenerated = st.namesGenerated ∨
    (clusterStep T st i).namesGenerated =
      st.namesGenerated ++ [nameOf T st i] := by
  by_cases h : (T.getD i default).thoughtNumber ∈ st.processed
  · rw [clusterStep_eq_processed T st i h]
    exact Or.inl rfl
  · by_cases hc : clusterOf T st i = []
    · rw [clusterStep_eq_empty T st i h hc]
      exact Or.inl rfl
    · rw [clusterStep_eq_not_processed T st i h hc]
      exact Or.inr rfl

lemma clusterFold_names_mono (T : List ThoughtData) (idxs : List ℕ)
    (st : ClusterState) :
    ∃ suf, (idxs.foldl (clusterStep T) st).namesGenerated =
      st.namesGenerated ++ suf := by
  induction idxs generalizing st with
  | nil => exact ⟨[], by simp⟩
  | cons k rest ih =>
    rw [List.foldl_cons]
    obtain ⟨suf, hsuf⟩ := ih (clusterStep T st k)
    rcases clusterStep_names T st k with h | h
    · exact ⟨suf, by rw [hsuf, h]⟩
    · exact ⟨nameOf T st k :: suf,
        by rw [hsuf, h, List.append_assoc, List.singleton_append]⟩

lemma eq_of_num_eq (T : List ThoughtData)
    (hnum : (T.map ThoughtData.thoughtNumber).Nodup)
    {u t : ThoughtData} (hu : u ∈ T) (ht : t ∈ T)
    (h : u.thoughtNumber = t.thoughtNumber) : u = t :=
  List.inj_on_of_nodup_map hnum hu ht h

/-- Invariant of the greedy clustering fold: cluster keys are the generated
names in order; every clustered thought is an input thought whose number is
processed; every input thought with a processed number lies in some cluster;
and clusters with distinct keys are disjoint. -/
def ClusterInv (T : List ThoughtData) (st : ClusterState) : Prop :=
  (st.clusters.map Prod.fst = st.namesGenerated) ∧
  (∀ p ∈ st.clusters, ∀ t ∈ p.2, t ∈ T ∧ t.thoughtNumber ∈ st.processed) ∧
  (∀ t ∈ T, t.thoughtNumber ∈ st.processed → ∃ p ∈ st.clusters, t ∈ p.2) ∧
  (∀ p ∈ st.clusters, ∀ q ∈ st.clusters, p.1 ≠ q.1 → ∀ t ∈ p.2, t ∉ q.2)

lemma keys_fresh_of_inv (T : List ThoughtData) (st : ClusterState) (k : ℕ)
    (hA : st.clusters.map Prod.fst = st.namesGenerated)
    (hnmem : nameOf T st k ∉ st.namesGenerated) :
    ∀ p ∈ st.clusters, p.1 ≠ nameOf T st k := by
  intro p hp heq
  apply hnmem
  rw [← hA, ← heq]
  exact List.mem_map_of_mem _ hp

lemma clusterStep_inv (T : List ThoughtData)
    (hnum : (T.map ThoughtData.thoughtNumber).Nodup)
    (st : ClusterState) (k : ℕ) (hk : k < T.length)
    (hinv : ClusterInv T st)
    (hfresh : (clusterStep T st k).namesGenerated.Nodup) :
    ClusterInv T (clusterStep T st k) ∧
    (∀ p ∈ st.clusters, p ∈ (clusterStep T st k).clusters) ∧
    (∀ x ∈ st.processed, x ∈ (clusterStep T st k).processed) ∧
    (T.getD k default).thoughtNumber ∈ (clusterStep T st k).processed := by
  obtain ⟨hA, hB, hC, hE⟩ := hinv
  by_cases hp : (T.getD k default).thoughtNumber ∈ st.processed
  · rw [clusterStep_eq_processed T st k hp]
    exact ⟨⟨hA, hB, hC, hE⟩, fun p hq => hq, fun x hx => hx, hp⟩
  · have hcne := clusterOf_ne_nil T st k hk hp
    have hstep := clusterStep_eq_not_processed T st k hp hcne
    rw [hstep] at hfresh ⊢
    dsimp only at hfresh ⊢
    have hnmem : nameOf T st k ∉ st.namesGenerated := by
      rw [List.nodup_append] at hfresh
      intro hmem2
      exact hfresh.2.2 hmem2 (List.mem_singleton_self _)
    have hrs : recordSet st.clusters (nameOf T st k) (clusterOf T st k) =
        st.clusters ++ [(nameOf T st k, clusterOf T st k)] :=
      recordSet_fresh _ _ _ (keys_fresh_of_inv T st k hA hnmem)
    rw [hrs]
    refine ⟨⟨?_, ?_, ?_, ?_⟩, ?_, ?_, ?_⟩
    · rw [List.map_append, hA]
      rfl
    · intro p hq t ht
      rcases List.mem_append.mp hq with hq | hq
      · obtain ⟨h1, h2⟩ := hB p hq t ht
        exact ⟨h1, List.mem_append_left _ h2⟩
      · rw [List.mem_singleton] at hq
        subst hq
        obtain ⟨h1, _⟩ := mem_clusterOf_mem T st k t ht
        refine ⟨h1, List.mem_append_right _ ?_⟩
        exact List.mem_map_of_mem _ ht
    · intro t htT hnum'
      rcases List.mem_append.mp hnum' with h | h
      · obtain ⟨p, hq, htp⟩ := hC t htT h
        exact ⟨p, List.mem_append_left _ hq, htp⟩
      · obtain ⟨u, hu, huq⟩ := List.mem_map.mp h
        have huT := (mem_clusterOf_mem T st k u hu).1
        have : u = t := eq_of_num_eq T hnum huT htT huq
        subst this
        exact ⟨(nameOf T st k, clusterOf T st k),
          List.mem_append_right _ (List.mem_singleton_self _), hu⟩
    · intro p hpm q hqm hne t htp htq
      rcases List.mem_append.mp hpm with hpm | hpm <;>
        rcases List.mem_append.mp hqm with hqm | hqm
      · exact hE p hpm q hqm hne t htp htq
      · rw [List.mem_singleton] at hqm
        subst hqm
        exact (mem_clusterOf_mem T st k t htq).2 (hB p hpm t htp).2
      · rw [List.mem_singleton] at hpm
        subst hpm
        exact (mem_clusterOf_mem T st k t htp).2 (hB q hqm t htq).2
      · rw [List.mem_singleton] at hpm hqm
        subst hpm
        subst hqm
        exact absurd rfl hne
    · intro p hq
      exact List.mem_append_left _ hq
    · intro x hx
      exact List.mem_append_left _ hx
    · refine List.mem_append_right _ ?_
      exact List.mem_map_of_mem _ (seed_mem_clusterOf T st k hk hp)

lemma clusterFold_inv (T : List ThoughtData)
    (hnum : (T.map ThoughtData.thoughtNumber).Nodup) :
    ∀ (idxs : List ℕ) (st : ClusterState),
    (∀ i ∈ idxs, i < T.length) →
    ClusterInv T st →
    ((idxs.foldl (clusterStep T) st).namesGenerated).Nodup →
    ClusterInv T (idxs.foldl (clusterStep T) st) ∧
    (∀ p ∈ st.clusters, p ∈ (idxs.foldl (clusterStep T) st).clusters) ∧
    (∀ x ∈ st.processed, x ∈ (idxs.foldl (clusterStep T) st).processed) ∧
    (∀ i ∈ idxs, (T.getD i default).thoughtNumber ∈
      (idxs.foldl (clusterStep T) st).processed) := by
  intro idxs
  induction idxs with
  | nil =>
    intro st _ hinv _
    exact ⟨hinv, fun p h => h, fun x h => h, by simp⟩
  | cons k rest ih =>
    intro st hlt hinv hnd
    rw [List.foldl_cons] at hnd ⊢
    obtain ⟨suf, hsuf⟩ := clusterFold_names_mono T rest (clusterStep T st k)
    have hstepnd : (clusterStep T st k).namesGenerated.Nodup := by
      rw [hsuf] at hnd
      exact hnd.of_append_left
    obtain ⟨hinv', hpers', hproc', hk'⟩ := clusterStep_inv T hnum st k
      (hlt k (List.mem_cons_self _ _)) hinv hstepnd
    obtain ⟨hinvF, hpersF, hprocF, hidxF⟩ := ih (clusterStep T st k)
      (fun i hi => hlt i (List.mem_cons_of_mem _ hi)) hinv' hnd
    refine ⟨hinvF, fun p hq => hpersF p (hpers' p hq),
      fun x hx => hprocF x (hproc' x hx), ?_⟩
    intro i hi
    rcases List.mem_cons.mp hi with rfl | hi'
    · exact hprocF _ hk'
    · exact hidxF i hi'

lemma clusterFold_singleton (T : List ThoughtData)
    (hnum : (T.map ThoughtData.thoughtNumber).Nodup) (i : ℕ)
    (hi : i < T.length)
    (hsml : ∀ j, j < T.length → j ≠ i → ¬(simMatrixEntry T i j > 0.6)) :
    ∀ (idxs : List ℕ) (st : ClusterState),
    (∀ i2 ∈ idxs, i2 < T.length) →
    ClusterInv T st →
    ((idxs.foldl (clusterStep T) st).namesGenerated).Nodup →
    i ∈ idxs →
    (T.getD i default).thoughtNumber ∉ st.processed →
    ∃ p ∈ (idxs.foldl (clusterStep T) st).clusters,
      p.2 = [T.getD i default] := by
  intro idxs
  induction idxs with
  | nil =>
    intro st _ _ _ hmem _
    simp at hmem
  | cons k rest ih =>
    intro st hlt hinv hnd hmem hproc
    rw [List.foldl_cons] at hnd ⊢
    obtain ⟨suf, hsuf⟩ := clusterFold_names_mono T rest (clusterStep T st k)
    have hstepnd : (clusterStep T st k).namesGenerated.Nodup := by
      rw [hsuf] at hnd
      exact hnd.of_append_left
    obtain ⟨hinv', _, _, _⟩ := clusterStep_inv T hnum st k
      (hlt k (List.mem_cons_self _ _)) hinv hstepnd
    by_cases hki : k = i
    · subst hki
      have hcsing := clusterOf_singleton T st k hi hproc hsml
      have hstep := clusterStep_eq_not_processed T st k hproc
        (by rw [hcsing]; simp)
      have hnmem : nameOf T st k ∉ st.namesGenerated := by
        rw [hstep] at hstepnd
        dsimp only at hstepnd
        rw [List.nodup_append] at hstepnd
        intro hmem2
        exact hstepnd.2.2 hmem2 (List.mem_singleton_self _)
      have hnew : (nameOf T st k, [T.getD k default]) ∈
          (clusterStep T st k).clusters := by
        rw [hstep]
        dsimp only
        rw [recordSet_fresh _ _ _
          (keys_fresh_of_inv T st k hinv.1 hnmem), hcsing]
        exact List.mem_append_right _ (List.mem_singleton_self _)
      obtain ⟨_, hpersF, _, _⟩ := clusterFold_inv T hnum rest
        (clusterStep T st k)
        (fun i2 hi2 => hlt i2 (List.mem_cons_of_mem _ hi2)) hinv' hnd
      exact ⟨_, hpersF _ hnew, rfl⟩
    · have hmem' : i ∈ rest := by
        rcases List.mem_cons.mp hmem with rfl | h
        · exact absurd rfl hki
        · exact h
      have hTi : T.getD i default ∈ T := by
        rw [List.getD_eq_getElem T default hi]
        exact List.getElem_mem hi
      have hproc' : (T.getD i default).thoughtNumber ∉
          (clusterStep T st k).processed := by
        by_cases hp : (T.getD k default).thoughtNumber ∈ st.processed
        · rw [clusterStep_eq_processed T st k hp]
          exact hproc
        · by_cases hc : clusterOf T st k = []
          · rw [clusterStep_eq_empty T st k hp hc]
            exact hproc
          · rw [clusterStep_eq_not_processed T st k hp hc]
            dsimp only
            intro hin
            rcases List.mem_append.mp hin with h | h
            · exact hproc h
            · obtain ⟨u, hu, huq⟩ := List.mem_map.mp h
              have huT := (mem_clusterOf_mem T st k u hu).1
              have huEq : u = T.getD i default :=
                eq_of_num_eq T hnum huT hTi huq
              obtain ⟨j, hget, _, hsim⟩ := (mem_clusterOf T st k u).mp hu
              have hjlen : j < T.length := by
                by_contra hcj
                rw [List.get?_eq_none.mpr (le_of_not_lt hcj)] at hget
                exact Option.noConfusion hget
              have hji : j = i := by
                have hgi : T.get? i = some (T.getD i default) := by
                  rw [List.getD_eq_getElem T default hi,
                    List.get?_eq_getElem?]
                  exact List.getElem?_eq_getElem hi
                have : T.get? j = T.get? i := by
                  rw [hget, hgi, huEq]
                exact List.get?_inj hjlen (List.Nodup.of_map _ hnum) this
              rw [hji] at hsim
              rw [simMatrixEntry_comm T k i] at hsim
              exact hsml k (hlt k (List.mem_cons_self _ _))
                (fun hc2 => hki hc2) hsim
      exact ih (clusterStep T st k)
        (fun i2 hi2 => hlt i2 (List.mem_cons_of_mem _ hi2)) hinv' hnd hmem'
        hproc'

lemma cosineSimilarity_zero_right (v1 v2 : List ℝ) (h : sumSq v2 = 0) :
    cosineSimilarity v1 v2 = 0 := by
  rw [cosineSimilarity_comm]
  exact cosineSimilarity_zero_left v2 v1 h

lemma jaccard_zero_of_disjoint (s1 s2 : Finset String)
    (h : s1 ∩ s2 = ∅) : jaccardSimilarity s1 s2 = 0 := by
  unfold jaccardSimilarity
  split_ifs
  · rfl
  · rw [h]
    simp

def c9A : ThoughtData :=
  { thought := "aaaa", thoughtNumber := 1, totalThoughts := 2,
    nextThoughtNeeded := true }

def c9B : ThoughtData :=
  { thought := "the", thoughtNumber := 1, totalThoughts := 2,
    nextThoughtNeeded := false }

lemma c9_tfidf_zero : calculateTfidfSimilarity "aaaa" "the" = 0 := by
  unfold calculateTfidfSimilarity
  dsimp only
  rw [show thoughtTokens "aaaa" = ["aaaa"] from by decide,
    show thoughtTokens "the" = [] from by decide]
  rw [show jsSplitWs (joinSpace ["aaaa"]) = ["aaaa"] from by decide,
    show jsSplitWs (joinSpace ([] : List String)) = [""] from by decide]
  rw [show jsDedup (["aaaa"] ++ ([] : List String)) = ["aaaa"] from by decide]
  have hidf : idfOf [["aaaa"], [""]] "aaaa" = 0 := by
    unfold idfOf
    rw [show List.filter (fun d => decide ("aaaa" ∈ d)) [["aaaa"], [""]] =
      [["aaaa"]] from by decide]
    norm_num
  have hf0 : tfidfOf [["aaaa"], [""]] "aaaa" 0 = 0 := by
    simp only [tfidfOf, List.get?]
    rw [hidf, mul_zero]
  have hm1 : ((["aaaa"] : List String).map fun t =>
      tfidfOf [["aaaa"], [""]] t 0 * tfidfOf [["aaaa"], [""]] t 0).sum
        = 0 := by
    rw [List.map_cons, List.map_nil, hf0]
    simp
  rw [hm1, Real.sqrt_zero]
  rw [if_pos (Or.inl rfl)]

lemma c9_sim_zero : analyzeSemanticSimilarity c9A c9B = 0 := by
  unfold analyzeSemanticSimilarity
  dsimp only
  rw [show c9A.vector = none from rfl, show c9B.vector = none from rfl]
  simp only [Option.getD_none]
  rw [show buildThoughtVectors c9B = List.ofFn
    fun k : Fin 300 => buildThoughtVectorsFn c9B.thought k from rfl]
  rw [cosineSimilarity_zero_right _ _
    (sumSq_buildVec_nil c9B.thought (by decide))]
  rw [show c9A.thought = "aaaa" from rfl, show c9B.thought = "the" from rfl]
  rw [saExtractKeywords_nil "the" (by decide)]
  rw [jaccard_zero_of_disjoint _ _ (by simp), c9_tfidf_zero]
  norm_num

lemma c9_cluster0 :
    clusterOf [c9A, c9B] ⟨[], [], 0, []⟩ 0 = [c9A] := by
  have hp0 : (([c9A, c9B] : List ThoughtData).getD 0
      default).thoughtNumber ∉ (⟨[], [], 0, []⟩ : ClusterState).processed := by
    simp
  have hsml : ∀ j, j < ([c9A, c9B] : List ThoughtData).length → j ≠ 0 →
      ¬(simMatrixEntry [c9A, c9B] 0 j > 0.6) := by
    intro j hj hj0
    have : j = 1 := by
      simp only [List.length_cons, List.length_nil] at hj
      omega
    subst this
    unfold simMatrixEntry
    rw [if_neg (by norm_num)]
    rw [show (([c9A, c9B] : List ThoughtData).getD 0 default) = c9A from rfl,
      show (([c9A, c9B] : List ThoughtData).getD 1 default) = c9B from rfl,
      c9_sim_zero]
    norm_num
  have := clusterOf_singleton [c9A, c9B] ⟨[], [], 0, []⟩ 0 (by norm_num)
    hp0 hsml
  rw [show (([c9A, c9B] : List ThoughtData).getD 0 default) = c9A from rfl]
    at this
  exact this

lemma c9_fold :
    clusterThoughtsByTopic [c9A, c9B] =
      [(nameOf [c9A, c9B] ⟨[], [], 0, []⟩ 0, [c9A])] := by
  have hp0 : (([c9A, c9B] : List ThoughtData).getD 0
      default).thoughtNumber ∉ (⟨[], [], 0, []⟩ : ClusterState).processed := by
    simp
  have hstep0 := clusterStep_eq_not_processed [c9A, c9B] ⟨[], [], 0, []⟩ 0
    hp0 (by rw [c9_cluster0]; simp)
  rw [c9_cluster0] at hstep0
  have hstep0' : clusterStep [c9A, c9B] ⟨[], [], 0, []⟩ 0 =
      ⟨[(nameOf [c9A, c9B] ⟨[], [], 0, []⟩ 0, [c9A])],
        [c9A.thoughtNumber], 1, [nameOf [c9A, c9B] ⟨[], [], 0, []⟩ 0]⟩ := by
    rw [hstep0]
    simp [recordSet]
  have hstep1 : clusterStep [c9A, c9B]
      (⟨[(nameOf [c9A, c9B] ⟨[], [], 0, []⟩ 0, [c9A])],
        [c9A.thoughtNumber], 1,
        [nameOf [c9A, c9B] ⟨[], [], 0, []⟩ 0]⟩ : ClusterState) 1 =
      ⟨[(nameOf [c9A, c9B] ⟨[], [], 0, []⟩ 0, [c9A])],
        [c9A.thoughtNumber], 1, [nameOf [c9A, c9B] ⟨[], [], 0, []⟩ 0]⟩ := by
    refine clusterStep_eq_processed _ _ _ ?_
    rw [show (([c9A, c9B] : List ThoughtData).getD 1 default) = c9B from rfl]
    rw [show c9B.thoughtNumber = c9A.thoughtNumber from rfl]
    exact List.mem_singleton_self _
  unfold clusterThoughtsByTopic clusterFoldResult
  rw [show List.range ([c9A, c9B] : List ThoughtData).length = [0, 1]
    from rfl]
  rw [show ([0, 1] : List ℕ).foldl (clusterStep [c9A, c9B])
      ⟨[], [], 0, []⟩ =
    clusterStep [c9A, c9B]
      (clusterStep [c9A, c9B] ⟨[], [], 0, []⟩ 0) 1 from rfl]
  rw [hstep0', hstep1]

/-- Counterexample to C9 as stated: clusters do not always cover the input.
With two thoughts sharing thoughtNumber 1 (texts "aaaa" and "the", pairwise
similarity 0), the first pass clusters only the first thought and marks
number 1 processed; the pass for the second thought then skips it, so the
second thought appears in no cluster of the returned grouping. -/
theorem C9_counterexample_thought_in_no_cluster :
    c9B ∈ [c9A, c9B] ∧
    ∀ p ∈ clusterThoughtsByTopic [c9A, c9B], c9B ∉ p.2 := by
  refine ⟨List.mem_cons_of_mem _ (List.mem_singleton_self _), ?_⟩
  intro p hp
  rw [c9_fold, List.mem_singleton] at hp
  subst hp
  dsimp only
  rw [List.mem_singleton]
  intro hBA
  have := congrArg ThoughtData.thought hBA
  simp [c9A, c9B] at this

/-- C9 (amended): under the hypotheses that the input thoughts have pairwise
distinct thoughtNumbers and that the topic names generated during the pass
are pairwise distinct (so no record assignment overwrites an earlier
cluster), the returned grouping covers every input thought, distinct
clusters are disjoint, and a thought whose similarity-matrix entry against
every other index is at most 0.6 forms a singleton cluster.  Without these
hypotheses the coverage claim is false (see the counterexample). -/
theorem C9_clustering_amended (T : List ThoughtData)
    (hnum : (T.map ThoughtData.thoughtNumber).Nodup)
    (hname : (clusterNamesGenerated T).Nodup) :
    (∀ t ∈ T, ∃ p ∈ clusterThoughtsByTopic T, t ∈ p.2) ∧
    (∀ p ∈ clusterThoughtsByTopic T, ∀ q ∈ clusterThoughtsByTopic T,
      p ≠ q → ∀ t ∈ p.2, t ∉ q.2) ∧
    (∀ i, i < T.length →
      (∀ j, j < T.length → j ≠ i → ¬(simMatrixEntry T i j > 0.6)) →
      ∃ p ∈ clusterThoughtsByTopic T, p.2 = [T.getD i default]) := by
  have hinit : ClusterInv T ⟨[], [], 0, []⟩ := by
    refine ⟨rfl, ?_, ?_, ?_⟩ <;> simp
  have hlt : ∀ i ∈ List.range T.length, i < T.length := fun i hi =>
    List.mem_range.mp hi
  have hnd : (((List.range T.length).foldl (clusterStep T)
      ⟨[], [], 0, []⟩).namesGenerated).Nodup := hname
  obtain ⟨⟨hA, hB, hC, hE⟩, -, -, hidx⟩ :=
    clusterFold_inv T hnum (List.range T.length) ⟨[], [], 0, []⟩ hlt hinit hnd
  refine ⟨?_, ?_, ?_⟩
  · intro t ht
    obtain ⟨n, hn⟩ := List.mem_iff_get.mp ht
    have hlen := n.2
    have hgetD : T.getD n.1 default = t := by
      rw [List.getD_eq_getElem T default hlen, ← List.get_eq_getElem]
      exact hn
    have hproc := hidx n.1 (List.mem_range.mpr hlen)
    rw [hgetD] at hproc
    exact hC t ht hproc
  · intro p hp q hq hne t htp
    refine hE p hp q hq ?_ t htp
    intro hkey
    apply hne
    have hnfst : ((clusterThoughtsByTopic T).map Prod.fst).Nodup := by
      have : (clusterThoughtsByTopic T).map Prod.fst =
          clusterNamesGenerated T := hA
      rw [this]
      exact hname
    exact List.inj_on_of_nodup_map hnfst hp hq hkey
  · intro i hi hsml
    exact clusterFold_singleton T hnum i hi hsml (List.range T.length)
      ⟨[], [], 0, []⟩ hlt hinit hnd (List.mem_range.mpr hi) (by simp)

lemma c9w_cluster0 : clusterOf [c9A] ⟨[], [], 0, []⟩ 0 = [c9A] := by
  have hsml : ∀ j, j < ([c9A] : List ThoughtData).length → j ≠ 0 →
      ¬(simMatrixEntry [c9A] 0 j > 0.6) := by
    intro j hj hj0
    simp only [List.length_cons, List.length_nil] at hj
    omega
  have := clusterOf_singleton [c9A] ⟨[], [], 0, []⟩ 0 (by norm_num)
    (by simp) hsml
  simpa using this

lemma c9w_names : (clusterNamesGenerated [c9A]).Nodup := by
  unfold clusterNamesGenerated clusterFoldResult
  rw [show List.range ([c9A] : List ThoughtData).length = [0] from rfl]
  rw [show ([0] : List ℕ).foldl (clusterStep [c9A]) ⟨[], [], 0, []⟩ =
    clusterStep [c9A] ⟨[], [], 0, []⟩ 0 from rfl]
  rw [clusterStep_eq_not_processed [c9A] ⟨[], [], 0, []⟩ 0 (by simp)
    (by rw [c9w_cluster0]; simp)]
  simp

/-- Witness for C9 (amended) at the one-thought list: both hypotheses hold
and the theorem applies. -/
theorem C9_clustering_witness :
    (([c9A] : List ThoughtData).map ThoughtData.thoughtNumber).Nodup ∧
    (clusterNamesGenerated [c9A]).Nodup ∧
    ((∀ t ∈ ([c9A] : List ThoughtData),
        ∃ p ∈ clusterThoughtsByTopic [c9A], t ∈ p.2) ∧
     (∀ p ∈ clusterThoughtsByTopic [c9A],
        ∀ q ∈ clusterThoughtsByTopic [c9A],
        p ≠ q → ∀ t ∈ p.2, t ∉ q.2) ∧
     (∀ i, i < ([c9A] : List ThoughtData).length →
        (∀ j, j < ([c9A] : List ThoughtData).length → j ≠ i →
          ¬(simMatrixEntry [c9A] i j > 0.6)) →
        ∃ p ∈ clusterThoughtsByTopic [c9A],
          p.2 = [([c9A] : List ThoughtData).getD i default])) :=
  ⟨by simp, c9w_names, C9_clustering_amended [c9A] (by simp) c9w_names⟩

end STS
